import Mathlib

/-!
# Master server: retries, session keys and the server list packet

A shallow embedding of `src/masterserver/handler.cpp`:

* `MSQueriedServer.DoAttempt`, the requerying of a game server;
* `MasterServer.NextSessionKey`, the session key counter;
* `MasterServer.GetServerListPacket`, the cache of the server list packet.

Calls into collaborators whose code is not part of `handler.cpp` (the query
socket, the SQL backend, the orchestrator's `RemoveQueriedServer`) are recorded
as events in the result of the function that makes them.

Machine integers are natural numbers with the reduction written out where the
code computes: frame numbers are `uint` values, so the sums
`frame + SERVER_QUERY_TIMEOUT` and `frame + GAME_SERVER_LIST_AGE` are taken
modulo `2 ^ 32`; values of the fixed-width types `uint64`, `uint32`, `uint16` and
`uint8` are reduced modulo `2 ^ 64`, `2 ^ 32`, `2 ^ 16` and `2 ^ 8`.
-/

namespace Masterserver

/-! ## Constants and collaborators -/

/-- Modelled from the spec: the configuration constants used by `handler.cpp`.
Their declarations live in headers that are not among the sources, so they are
parameters of the development. `sizeof_buffer` is `sizeof(Packet::buffer)`, the
datagram buffer capacity, and `PACKET_UDP_MASTER_RESPONSE_LIST` the packet type
of a server list. -/
structure Constants where
  SERVER_QUERY_TIMEOUT : Nat
  SERVER_QUERY_ATTEMPTS : Nat
  GAME_SERVER_LIST_AGE : Nat
  sizeof_buffer : Nat
  PACKET_UDP_MASTER_RESPONSE_LIST : Nat
deriving DecidableEq, Repr

/-- Modelled from the spec: a `NetworkAddress` as far as `handler.cpp` reads it.
`s_addr` is the 32-bit word obtained by
`((sockaddr_in*)GetAddress())->sin_addr.s_addr`, `port` is `GetPort()`. -/
structure NetworkAddress where
  s_addr : Nat
  port : Nat
deriving DecidableEq, Repr

/-- Modelled from the spec: the part of `UDPServer` that `DoAttempt` reads,
namely the current frame (`GetFrame()`, a `uint` frame number of the logical
clock) and the query socket (`GetQuerySocket()`, identified by a number). -/
structure UDPServer where
  frame : Nat
  query_socket : Nat
deriving DecidableEq, Repr

/-! ## Requerying of game servers -/

/-- Modelled from the spec: the fields of `MSQueriedServer` (the class is
declared in a header that is not among the sources). `server_address`,
`attempts` (starting at 0) and `frame` (the frame of the last attempt, a `uint`
as the constructor's parameter) come from `QueriedServer`; `reply_address` and
`session_key` are set by the constructor in `handler.cpp`. -/
structure MSQueriedServer where
  server_address : NetworkAddress
  attempts : Nat
  frame : Nat
  reply_address : NetworkAddress
  session_key : Nat
deriving DecidableEq, Repr

/-- The constructor `MSQueriedServer::MSQueriedServer`: the base class
constructor `QueriedServer(query_address, frame)` stores the address and the
frame and starts with no attempts. -/
def MSQueriedServer.ctor (query_address reply_address : NetworkAddress)
    (session_key : Nat) (frame : Nat) : MSQueriedServer :=
  { server_address := query_address
    attempts := 0
    frame := frame
    reply_address := reply_address
    session_key := session_key }

/-- The calls `DoAttempt` makes on other objects. Each records the object
`this` as it is at the moment of the call. The bodies of the called functions
are not among the sources; by the spec `SendFindGameServerPacket` sends the
probe datagram to the `server_address` of its object over the given socket. -/
inductive Event where
  /-- The call `server->RemoveQueriedServer(this)`. -/
  | RemoveQueriedServer (qs : MSQueriedServer)
  /-- The call `this->SendFindGameServerPacket(socket)`: the probe is sent over `socket` to
  `qs.server_address`. -/
  | SendFindGameServerPacket (socket : Nat) (qs : MSQueriedServer)
deriving DecidableEq, Repr

/-- Whether an event is the sending of a probe. -/
def Event.isSend : Event → Bool
  | .SendFindGameServerPacket _ _ => true
  | .RemoveQueriedServer _ => false

/-- Outcome of one `DoAttempt` call. `self` holds the fields of the object when
the call ends; when `deleted` is set the call ended in `delete this`, the object
no longer exists and `self` holds the fields it had when it was deleted. -/
structure DoAttemptResult where
  self : MSQueriedServer
  deleted : Bool
  events : List Event
deriving DecidableEq, Repr

/-- The method `MSQueriedServer::DoAttempt`. The sum `frame +
SERVER_QUERY_TIMEOUT` is one of `uint` and wraps around at `2 ^ 32`. -/
def MSQueriedServer.DoAttempt (c : Constants) (server : UDPServer)
    (self : MSQueriedServer) : DoAttemptResult :=
  /- Not yet waited long enough for a next attempt -/
  if (self.frame + c.SERVER_QUERY_TIMEOUT) % 2 ^ 32 > server.frame then
    { self := self, deleted := false, events := [] }
  else
    /- The server did not respond in time, retry -/
    let this : MSQueriedServer := { self with attempts := self.attempts + 1 }
    if this.attempts > c.SERVER_QUERY_ATTEMPTS then
      /- We tried too many times already -/
      { self := this, deleted := true, events := [Event.RemoveQueriedServer this] }
    else
      /- Resend query -/
      { self := { this with frame := server.frame }
        deleted := false
        events := [Event.SendFindGameServerPacket server.query_socket this] }

/-- Number of probes sent during one `DoAttempt` call. -/
def DoAttemptResult.sends (r : DoAttemptResult) : Nat :=
  (r.events.filter Event.isSend).length

/-- Successive `DoAttempt` calls on one entry, one per listed server frame, all
with the same query socket. The list holds the outcome of every call made; once
a call has deleted the entry there is no object left and no further call is
made. -/
def DoAttempts (c : Constants) (socket : Nat) :
    MSQueriedServer → List Nat → List DoAttemptResult
  | _, [] => []
  | e, f :: fs =>
    let r := e.DoAttempt c { frame := f, query_socket := socket }
    r :: (if r.deleted then [] else DoAttempts c socket r.self fs)

/-- Total number of probes sent in a series of calls. -/
def totalSends (rs : List DoAttemptResult) : Nat :=
  (rs.map DoAttemptResult.sends).sum

/-! ## The master server -/

/-- The enumeration `ServerListType`; `SLT_END` is 2. -/
inductive ServerListType where
  | SLT_IPv4
  | SLT_IPv6
deriving DecidableEq, Repr

/-- Numeric value of a `ServerListType`. -/
def ServerListType.toNat : ServerListType → Nat
  | .SLT_IPv4 => 0
  | .SLT_IPv6 => 1

/-- An array indexed by `ServerListType` (of length `SLT_END`). -/
structure SLTArray (α : Type) where
  ipv4 : α
  ipv6 : α
deriving DecidableEq, Repr

/-- Read `a[type]`. -/
def SLTArray.get {α : Type} (a : SLTArray α) : ServerListType → α
  | .SLT_IPv4 => a.ipv4
  | .SLT_IPv6 => a.ipv6

/-- Write `a[type] = v`. -/
def SLTArray.set {α : Type} (a : SLTArray α) (type : ServerListType) (v : α) : SLTArray α :=
  match type with
  | .SLT_IPv4 => { a with ipv4 := v }
  | .SLT_IPv6 => { a with ipv6 := v }

/-- One value written into a packet by `Send_uint8`, `Send_uint16` or
`Send_uint32`, reduced to the width of the field. -/
inductive PacketField where
  | uint8 (v : Nat)
  | uint16 (v : Nat)
  | uint32 (v : Nat)
deriving DecidableEq, Repr

/-- Modelled from the spec: a `Packet` of the sequential packet writer, whose
code is not among the sources. After the size and the packet type, the payload
is the sequence of fields written so far, in the order written. -/
structure Packet where
  type : Nat
  payload : List PacketField
deriving DecidableEq, Repr

/-- Modelled from the spec: `NetworkSend_Init(type)` creates a packet of the given
type with an empty payload. -/
def NetworkSend_Init (type : Nat) : Packet :=
  { type := type, payload := [] }

/-- Modelled from the spec: `Packet::Send_uint8` appends one byte. -/
def Packet.Send_uint8 (p : Packet) (data : Nat) : Packet :=
  { p with payload := p.payload ++ [PacketField.uint8 (data % 2 ^ 8)] }

/-- Modelled from the spec: `Packet::Send_uint16` appends a 16-bit value. -/
def Packet.Send_uint16 (p : Packet) (data : Nat) : Packet :=
  { p with payload := p.payload ++ [PacketField.uint16 (data % 2 ^ 16)] }

/-- Modelled from the spec: `Packet::Send_uint32` appends a 32-bit value. -/
def Packet.Send_uint32 (p : Packet) (data : Nat) : Packet :=
  { p with payload := p.payload ++ [PacketField.uint32 (data % 2 ^ 32)] }

/-- Modelled from the spec: the SQL backend (the AddressBook), external to
`handler.cpp`. `GetActiveServers max_count ipv6` is the sequence of addresses the
call `sql->GetActiveServers(servers, max_count, ipv6)` stores in `servers`; its
length is the count the call returns. -/
structure SQL where
  GetActiveServers : Nat → Bool → List NetworkAddress

/-- The state of the `MasterServer` object that `handler.cpp` reads and writes.
The current frame and the query socket are those of the base class `UDPServer`;
frame numbers are `uint` values and `session_key` is a `uint64`. -/
structure MasterServer extends UDPServer where
  serverlist_packet : SLTArray (Option Packet)
  update_serverlist_packet : SLTArray Bool
  next_serverlist_frame : SLTArray Nat
  session_key : Nat
deriving DecidableEq, Repr

/-- The part of the constructor `MasterServer::MasterServer` that initialises the
fields above: no packets, all lists to be updated, and a session key of
`time(NULL) << 16`. The base class state and `time(NULL)` are arguments. -/
def MasterServer.ctor (base : UDPServer) (time : Nat) : MasterServer :=
  { toUDPServer := base
    serverlist_packet := { ipv4 := none, ipv6 := none }
    update_serverlist_packet := { ipv4 := true, ipv6 := true }
    next_serverlist_frame := { ipv4 := 0, ipv6 := 0 }
    session_key := (time <<< 16) % 2 ^ 64 }

/-- The method `MasterServer::NextSessionKey`; `random` is the value returned by
the call `random()`. The addition is one of `uint64`. Returns the key and the
new state. -/
def MasterServer.NextSessionKey (self : MasterServer) (random : Nat) : Nat × MasterServer :=
  let self1 : MasterServer :=
    { self with session_key := (self.session_key + (1 + (random &&& 0xFF))) % 2 ^ 64 }
  (self1.session_key, self1)

/-- Successive `NextSessionKey` calls, one per value returned by `random()`.
Returns the keys in the order issued and the final state. -/
def NextSessionKeys : MasterServer → List Nat → List Nat × MasterServer
  | ms, [] => ([], ms)
  | ms, r :: rs =>
    ((ms.NextSessionKey r).1 :: (NextSessionKeys (ms.NextSessionKey r).2 rs).1,
      (NextSessionKeys (ms.NextSessionKey r).2 rs).2)

/-- The static table `max_count` of `GetServerListPacket`: the size of the packet
buffer minus `sizeof(PacketSize)` (2), `sizeof(PacketType)` (1) and
`sizeof(count)` (2), divided by the bytes reserved for one server, stored as a
`uint16`. The buffer is taken to hold at least these 5 bytes, so that the
subtraction does not wrap around. -/
def max_count (c : Constants) : ServerListType → Nat
  | .SLT_IPv4 => ((c.sizeof_buffer - 2 - 1 - 2) / (4 + 2)) % 2 ^ 16
  | .SLT_IPv6 => ((c.sizeof_buffer - 2 - 1 - 2) / (4 + 128 / 8 + 2)) % 2 ^ 16

/-- Outcome of one `GetServerListPacket` call: the returned pointer (`none` for
`NULL`), the new state, and the calls made to `sql->GetActiveServers`, each with
its `max_count` and `ipv6` arguments. -/
structure GetServerListPacketResult where
  ret : Option Packet
  state : MasterServer
  queries : List (Nat × Bool)
deriving DecidableEq, Repr

/-- The method `MasterServer::GetServerListPacket`. The sum `frame +
GAME_SERVER_LIST_AGE` is one of `uint` and wraps around at `2 ^ 32`. -/
def MasterServer.GetServerListPacket (c : Constants) (sql : SQL) (self : MasterServer)
    (type : ServerListType) : GetServerListPacketResult :=
  /- Rebuild the packet only once in a while -/
  if self.update_serverlist_packet.get type
      || decide (self.next_serverlist_frame.get type < self.frame) then
    let p := (NetworkSend_Init c.PACKET_UDP_MASTER_RESPONSE_LIST).Send_uint8 (type.toNat + 1)
    let servers := sql.GetActiveServers (max_count c type) (decide (type = .SLT_IPv6))
    let count := servers.length % 2 ^ 16
    /- Fill the packet -/
    let p := p.Send_uint16 count
    let p := (servers.take count).foldl
      (fun p s => (p.Send_uint32 s.s_addr).Send_uint16 s.port) p
    /- Schedule the next retry -/
    let self1 : MasterServer :=
      { self with
        serverlist_packet := self.serverlist_packet.set type (some p)
        next_serverlist_frame :=
          self.next_serverlist_frame.set type
            ((self.frame + c.GAME_SERVER_LIST_AGE) % 2 ^ 32)
        update_serverlist_packet := self.update_serverlist_packet.set type false }
    { ret := self1.serverlist_packet.get type
      state := self1
      queries := [(max_count c type, decide (type = .SLT_IPv6))] }
  else
    { ret := self.serverlist_packet.get type, state := self, queries := [] }

/-- The packet built by a rebuild for `type` from the servers the SQL backend
returns. -/
def rebuiltPacket (c : Constants) (sql : SQL) (type : ServerListType) : Packet :=
  ((sql.GetActiveServers (max_count c type) (decide (type = .SLT_IPv6))).take
      ((sql.GetActiveServers (max_count c type) (decide (type = .SLT_IPv6))).length % 2 ^ 16)).foldl
    (fun p s => (p.Send_uint32 s.s_addr).Send_uint16 s.port)
    (((NetworkSend_Init c.PACKET_UDP_MASTER_RESPONSE_LIST).Send_uint8 (type.toNat + 1)).Send_uint16
      ((sql.GetActiveServers (max_count c type) (decide (type = .SLT_IPv6))).length % 2 ^ 16))

/-- Bytes a field takes in the packet buffer. -/
def PacketField.width : PacketField → Nat
  | .uint8 _ => 1
  | .uint16 _ => 2
  | .uint32 _ => 4

/-- Modelled from the spec: the encoded length of a packet, whose layout is
`[size:u16][type:u8][payload]`: two bytes of packet size, one byte of packet
type, then the fields written. -/
def Packet.size (p : Packet) : Nat :=
  2 + 1 + (p.payload.map PacketField.width).sum

/-- The fields the fill loop of `GetServerListPacket` writes for one server:
`Send_uint32` of the address word, then `Send_uint16` of the port. -/
def encodeServer (s : NetworkAddress) : List PacketField :=
  [PacketField.uint32 (s.s_addr % 2 ^ 32), PacketField.uint16 (s.port % 2 ^ 16)]

/-- Modelled from the spec: the AddressBook, the store of the servers currently
considered active, in a fixed order, for each address family. -/
structure AddressBook where
  servers : SLTArray (List NetworkAddress)

/-- Modelled from the spec: `GetActiveServers(family, max_count)` of the
AddressBook, whose code is not among the sources. It yields the active servers of
the family, in order, up to `max_count` of them; excess servers are omitted. -/
def AddressBook.toSQL (book : AddressBook) : SQL :=
  { GetActiveServers := fun max_count ipv6 =>
      (book.servers.get (if ipv6 then .SLT_IPv6 else .SLT_IPv4)).take max_count }

/-- Modelled from the spec: the contract of the backing store, that
`GetActiveServers` returns a count of at most `max_count`. -/
def HonoursMaxCount (sql : SQL) : Prop :=
  ∀ (max_count : Nat) (ipv6 : Bool), (sql.GetActiveServers max_count ipv6).length ≤ max_count

/-- A well-formed server list packet of a family: for some sequence of at most
`max_count` servers it holds the family tag, the number of these servers as the
16-bit count, and then the fields of exactly these servers. -/
def IsServerListPacket (c : Constants) (type : ServerListType) (p : Packet) : Prop :=
  ∃ servers : List NetworkAddress,
    servers.length ≤ max_count c type ∧
      p = { type := c.PACKET_UDP_MASTER_RESPONSE_LIST
            payload :=
              [PacketField.uint8 (type.toNat + 1), PacketField.uint16 servers.length] ++
                servers.flatMap encodeServer }

/-- Modelled from the spec: the states of the master server reachable from the
state the constructor leaves, together with the families `GetServerListPacket`
was called for so far (latest first). Besides `GetServerListPacket` (with a
backend allowed by `backend`) and `NextSessionKey`, the steps are those of code
that is not in `handler.cpp`: the frame counter takes a new value (the tick loop
advances it), and a list is marked to be updated (a server went online or
offline). -/
inductive Reachable (c : Constants) (backend : SQL → Prop) :
    MasterServer → List ServerListType → Prop where
  | constructed (base : UDPServer) (time : Nat) :
      Reachable c backend (MasterServer.ctor base time) []
  | getServerListPacket {ms : MasterServer} {calls : List ServerListType} (sql : SQL)
      (type : ServerListType) :
      backend sql → Reachable c backend ms calls →
        Reachable c backend (ms.GetServerListPacket c sql type).state (type :: calls)
  | setFrame {ms : MasterServer} {calls : List ServerListType} (frame : Nat) :
      Reachable c backend ms calls → Reachable c backend { ms with frame := frame } calls
  | markDirty {ms : MasterServer} {calls : List ServerListType} (type : ServerListType) :
      Reachable c backend ms calls →
        Reachable c backend
          { ms with update_serverlist_packet := ms.update_serverlist_packet.set type true } calls
  | nextSessionKey {ms : MasterServer} {calls : List ServerListType} (random : Nat) :
      Reachable c backend ms calls → Reachable c backend (ms.NextSessionKey random).2 calls

/-- Modelled from the spec: `UDPServer::RemoveQueriedServer`, whose code is not
among the sources, called for the entry at position `i` of the server's
collection of queried servers: it removes that entry from the collection and
touches no other. -/
def RemoveQueriedServer (entries : List MSQueriedServer) (i : Nat) : List MSQueriedServer :=
  entries.eraseIdx i

/-- Modelled from the spec: one `DoAttempt` call on the entry at position `i` of
the server's collection of queried servers. The call acts on its own object;
when it ends in `RemoveQueriedServer(this); delete this` the entry leaves the
collection. Returns the collection afterwards and the calls made. -/
def DoAttemptAt (c : Constants) (server : UDPServer) (entries : List MSQueriedServer) (i : Nat) :
    List MSQueriedServer × List Event :=
  match entries[i]? with
  | none => (entries, [])
  | some e =>
    ((if (e.DoAttempt c server).deleted then RemoveQueriedServer entries i
      else entries.set i (e.DoAttempt c server).self),
      (e.DoAttempt c server).events)

/-! ## Concrete values used in examples -/

/-- Example constants: a timeout of 5 frames, 3 attempts, lists aged 10 frames,
a buffer of 1460 bytes and packet type 7. -/
def exampleConstants : Constants :=
  { SERVER_QUERY_TIMEOUT := 5
    SERVER_QUERY_ATTEMPTS := 3
    GAME_SERVER_LIST_AGE := 10
    sizeof_buffer := 1460
    PACKET_UDP_MASTER_RESPONSE_LIST := 7 }

/-- Example master server state: as constructed at time 0, at frame 0. -/
def exampleMasterServer : MasterServer :=
  MasterServer.ctor { frame := 0, query_socket := 1 } 0

/-- Example SQL backend: it knows two servers, whatever is asked. -/
def exampleSQL : SQL :=
  { GetActiveServers := fun _ _ =>
      [{ s_addr := 16777343, port := 3979 }, { s_addr := 33554559, port := 3979 }] }

/-- Example SQL backend that knows no server. -/
def emptySQL : SQL :=
  { GetActiveServers := fun _ _ => [] }

/-- Example entry: a server queried at frame 0 that was not retried yet. -/
def exampleEntry : MSQueriedServer :=
  MSQueriedServer.ctor { s_addr := 16777343, port := 3979 } { s_addr := 33554559, port := 3978 } 42 0

/-- Example cache state at frame 10: the IPv4 list was built (from no servers),
is not to be updated, and its next frame is 10. -/
def exampleCachedServer : MasterServer :=
  { frame := 10
    query_socket := 1
    serverlist_packet :=
      { ipv4 := some { type := 7, payload := [PacketField.uint8 1, PacketField.uint16 0] }
        ipv6 := none }
    update_serverlist_packet := { ipv4 := false, ipv6 := true }
    next_serverlist_frame := { ipv4 := 10, ipv6 := 0 }
    session_key := 0 }

/-- Example constants with a packet buffer of 11 bytes. -/
def smallBufferConstants : Constants :=
  { exampleConstants with sizeof_buffer := 11 }

/-- Example SQL backend that knows one server. -/
def oneServerSQL : SQL :=
  { GetActiveServers := fun _ _ => [{ s_addr := 16777343, port := 3979 }] }

/-- Example AddressBook: three IPv4 servers and one IPv6 server. -/
def exampleAddressBook : AddressBook :=
  { servers :=
      { ipv4 :=
          [{ s_addr := 16777343, port := 3979 }, { s_addr := 33554559, port := 3979 },
            { s_addr := 50331775, port := 3980 }]
        ipv6 := [{ s_addr := 0, port := 3979 }] } }

/-- Example entry whose last attempt was at frame `2 ^ 32 - 3`, close to the
end of the `uint` range. -/
def wrapEntry : MSQueriedServer :=
  { exampleEntry with frame := 4294967293 }

/-- Example master server state as constructed, at frame `2 ^ 32 - 6`. -/
def wrapMasterServer : MasterServer :=
  MasterServer.ctor { frame := 4294967290, query_socket := 1 } 0

/-- Example collection of queried servers: the example entry after three
attempts between two fresh entries. -/
def exampleEntries : List MSQueriedServer :=
  [exampleEntry, { exampleEntry with attempts := 3, session_key := 43 },
    { exampleEntry with session_key := 44, frame := 2 }]

/-! ## Theorems: requerying of game servers -/

/-- The three ways a `DoAttempt` call can go. -/
theorem DoAttempt_cases (c : Constants) (server : UDPServer) (e : MSQueriedServer) :
    (server.frame < (e.frame + c.SERVER_QUERY_TIMEOUT) % 2 ^ 32 ∧
        e.DoAttempt c server = { self := e, deleted := false, events := [] }) ∨
      ((e.frame + c.SERVER_QUERY_TIMEOUT) % 2 ^ 32 ≤ server.frame ∧
        c.SERVER_QUERY_ATTEMPTS < e.attempts + 1 ∧
        e.DoAttempt c server =
          { self := { e with attempts := e.attempts + 1 }
            deleted := true
            events := [Event.RemoveQueriedServer { e with attempts := e.attempts + 1 }] }) ∨
      ((e.frame + c.SERVER_QUERY_TIMEOUT) % 2 ^ 32 ≤ server.frame ∧
        e.attempts + 1 ≤ c.SERVER_QUERY_ATTEMPTS ∧
        e.DoAttempt c server =
          { self := { e with attempts := e.attempts + 1, frame := server.frame }
            deleted := false
            events :=
              [Event.SendFindGameServerPacket server.query_socket
                { e with attempts := e.attempts + 1 }] }) := by
  by_cases h1 : (e.frame + c.SERVER_QUERY_TIMEOUT) % 2 ^ 32 > server.frame
  · left
    exact ⟨h1, by simp only [MSQueriedServer.DoAttempt, if_pos h1]⟩
  · by_cases h2 : e.attempts + 1 > c.SERVER_QUERY_ATTEMPTS
    · right; left
      exact ⟨Nat.le_of_not_lt h1, h2,
        by simp only [MSQueriedServer.DoAttempt, if_neg h1, if_pos h2]⟩
    · right; right
      exact ⟨Nat.le_of_not_lt h1, Nat.le_of_not_lt h2,
        by simp only [MSQueriedServer.DoAttempt, if_neg h1, if_neg h2]⟩

/-- One call never lowers the attempt counter. -/
theorem DoAttempt_attempts_ge (c : Constants) (server : UDPServer) (e : MSQueriedServer) :
    e.attempts ≤ (e.DoAttempt c server).self.attempts := by
  rcases DoAttempt_cases c server e with ⟨_, h⟩ | ⟨_, _, h⟩ | ⟨_, _, h⟩ <;> rw [h] <;> simp

/-- One call on an entry within its budget leaves the counter within the budget
plus one, and within the budget when the entry survives. -/
theorem DoAttempt_attempts_le (c : Constants) (server : UDPServer) (e : MSQueriedServer)
    (h : e.attempts ≤ c.SERVER_QUERY_ATTEMPTS) :
    (e.DoAttempt c server).self.attempts ≤ c.SERVER_QUERY_ATTEMPTS + 1 ∧
      ((e.DoAttempt c server).deleted = false →
        (e.DoAttempt c server).self.attempts ≤ c.SERVER_QUERY_ATTEMPTS) := by
  rcases DoAttempt_cases c server e with ⟨_, h⟩ | ⟨_, _, h⟩ | ⟨_, _, h⟩ <;> rw [h] <;> simp <;>
    omega

/-- A call that deletes the entry sends nothing. -/
theorem DoAttempt_deleted_sends (c : Constants) (server : UDPServer) (e : MSQueriedServer)
    (h : (e.DoAttempt c server).deleted = true) : (e.DoAttempt c server).sends = 0 := by
  rcases DoAttempt_cases c server e with ⟨_, h1⟩ | ⟨_, _, h1⟩ | ⟨_, _, h1⟩ <;> rw [h1] at h ⊢ <;>
    simp_all [DoAttemptResult.sends, Event.isSend]

/-- One call sends at most one probe. -/
theorem DoAttempt_sends_le_one (c : Constants) (server : UDPServer) (e : MSQueriedServer) :
    (e.DoAttempt c server).sends ≤ 1 := by
  rcases DoAttempt_cases c server e with ⟨_, h⟩ | ⟨_, _, h⟩ | ⟨_, _, h⟩ <;> rw [h] <;>
    simp [DoAttemptResult.sends, Event.isSend]

/-- Along a series of calls on an entry within its budget the attempt counter
never decreases, stays within the budget plus one, and stays within the budget
while the entry exists. -/
theorem DoAttempts_attempts (c : Constants) (socket : Nat) (frames : List Nat) :
    ∀ e : MSQueriedServer, e.attempts ≤ c.SERVER_QUERY_ATTEMPTS →
      List.Chain (· ≤ ·) e.attempts
          ((DoAttempts c socket e frames).map (fun r => r.self.attempts)) ∧
        ∀ r ∈ DoAttempts c socket e frames,
          r.self.attempts ≤ c.SERVER_QUERY_ATTEMPTS + 1 ∧
            (r.deleted = false → r.self.attempts ≤ c.SERVER_QUERY_ATTEMPTS) := by
  induction frames with
  | nil => intro e _; simp [DoAttempts]
  | cons f fs ih =>
    intro e he
    have hge := DoAttempt_attempts_ge c { frame := f, query_socket := socket } e
    have hle := DoAttempt_attempts_le c { frame := f, query_socket := socket } e he
    cases hdel : (e.DoAttempt c { frame := f, query_socket := socket }).deleted with
    | true =>
      simp only [DoAttempts, hdel, if_true, List.map_cons, List.map_nil, List.mem_singleton]
      refine ⟨List.Chain.cons hge List.Chain.nil, ?_⟩
      intro r hr
      subst hr
      exact hle
    | false =>
      have ih1 := ih (e.DoAttempt c { frame := f, query_socket := socket }).self (hle.2 hdel)
      simp only [DoAttempts, hdel, Bool.false_eq_true, if_false, List.map_cons, List.mem_cons]
      refine ⟨List.Chain.cons hge ih1.1, ?_⟩
      intro r hr
      rcases hr with hr | hr
      · subst hr
        exact hle
      · exact ih1.2 r hr

/-- Before the timeout has passed a call changes nothing. -/
theorem DoAttempt_of_lt (c : Constants) (server : UDPServer) (e : MSQueriedServer)
    (h : server.frame < (e.frame + c.SERVER_QUERY_TIMEOUT) % 2 ^ 32) :
    e.DoAttempt c server = { self := e, deleted := false, events := [] } := by
  unfold MSQueriedServer.DoAttempt
  rw [if_pos h]

/-- One step of a series of calls. -/
theorem DoAttempts_cons (c : Constants) (socket : Nat) (e : MSQueriedServer) (f : Nat)
    (fs : List Nat) :
    DoAttempts c socket e (f :: fs) =
      e.DoAttempt c { frame := f, query_socket := socket } ::
        (if (e.DoAttempt c { frame := f, query_socket := socket }).deleted then []
          else DoAttempts c socket (e.DoAttempt c { frame := f, query_socket := socket }).self fs) := by
  simp [DoAttempts]

/-- The probes of a series are those of its first call plus those of the rest. -/
theorem totalSends_cons (r : DoAttemptResult) (rs : List DoAttemptResult) :
    totalSends (r :: rs) = r.sends + totalSends rs := by
  simp [totalSends]

/-- Calls that do nothing send nothing. -/
theorem totalSends_replicate_append (e : MSQueriedServer) (m : Nat) (rs : List DoAttemptResult) :
    totalSends (List.replicate m { self := e, deleted := false, events := [] } ++ rs)
      = totalSends rs := by
  induction m with
  | zero => simp
  | succ m ih =>
    rw [List.replicate_succ, List.cons_append, totalSends_cons, ih]
    simp [DoAttemptResult.sends]

/-- While the offered frames stay below the last-sent frame plus the timeout,
and this sum does not wrap around, every call does nothing. -/
theorem DoAttempts_quiet (c : Constants) (socket : Nat) (e : MSQueriedServer) (rest : List Nat)
    (hw : e.frame + c.SERVER_QUERY_TIMEOUT < 2 ^ 32) (m : Nat) :
    ∀ s : Nat, s + m ≤ e.frame + c.SERVER_QUERY_TIMEOUT →
      DoAttempts c socket e (List.range' s m ++ rest) =
        List.replicate m { self := e, deleted := false, events := [] } ++
          DoAttempts c socket e rest := by
  induction m with
  | zero => intro s _; simp
  | succ m ih =>
    intro s hs
    have h1 := DoAttempt_of_lt c { frame := s, query_socket := socket } e
      (by simp only []; rw [Nat.mod_eq_of_lt hw]; omega)
    rw [List.range'_succ, List.cons_append, DoAttempts_cons, h1]
    simp only [Bool.false_eq_true, if_false]
    rw [ih (s + 1) (by omega), List.replicate_succ, List.cons_append]

/-- A series of calls that all come before the timeout has passed. -/
theorem DoAttempts_quiet_all (c : Constants) (socket : Nat) (e : MSQueriedServer) (m s : Nat)
    (hw : e.frame + c.SERVER_QUERY_TIMEOUT < 2 ^ 32)
    (h : s + m ≤ e.frame + c.SERVER_QUERY_TIMEOUT) :
    DoAttempts c socket e (List.range' s m) =
      List.replicate m { self := e, deleted := false, events := [] } := by
  have h1 := DoAttempts_quiet c socket e [] hw m s h
  simpa [DoAttempts] using h1

/-- Calls that do nothing send nothing in total. -/
theorem totalSends_replicate (e : MSQueriedServer) (m : Nat) :
    totalSends (List.replicate m { self := e, deleted := false, events := [] }) = 0 := by
  have h1 := totalSends_replicate_append e m []
  simpa [totalSends] using h1

/-- The frames after the last-sent frame `g`, split at the frame `g + T` at which
the timeout has passed. -/
theorem range_split_at_timeout (g T n : Nat) (hT : 0 < T) (hn : T ≤ n) :
    List.range' (g + 1) n =
      List.range' (g + 1) (T - 1) ++ (g + T) :: List.range' (g + T + 1) (n - T) := by
  have h1 : n = (n - T + 1) + (T - 1) := by omega
  have h2 := List.range'_append (g + 1) (T - 1) (n - T + 1) 1
  rw [← h1] at h2
  rw [← h2, List.range'_succ]
  have h3 : g + 1 + 1 * (T - 1) = g + T := by omega
  rw [h3]

/-- The retry schedule of an entry with `p` attempts left, offered the `n`
frames that follow its last-sent frame, when the frame counter does not wrap
around within `p + 1` timeouts: at most `p` probes are sent, exactly `p` once
`p` timeouts have passed, and after `p + 1` timeouts the series has ended with
the call that removes the entry. -/
theorem DoAttempts_schedule (c : Constants) (socket : Nat) (hT : 0 < c.SERVER_QUERY_TIMEOUT)
    (p : Nat) :
    ∀ e : MSQueriedServer, e.attempts + p = c.SERVER_QUERY_ATTEMPTS →
      e.frame + (p + 1) * c.SERVER_QUERY_TIMEOUT < 2 ^ 32 → ∀ n : Nat,
      totalSends (DoAttempts c socket e (List.range' (e.frame + 1) n)) ≤ p ∧
        (p * c.SERVER_QUERY_TIMEOUT ≤ n →
          totalSends (DoAttempts c socket e (List.range' (e.frame + 1) n)) = p) ∧
        ((p + 1) * c.SERVER_QUERY_TIMEOUT ≤ n →
          (DoAttempts c socket e (List.range' (e.frame + 1) n)).length
              = (p + 1) * c.SERVER_QUERY_TIMEOUT ∧
            (DoAttempts c socket e (List.range' (e.frame + 1) n)).getLast? =
              some
                { self :=
                    { e with
                      attempts := e.attempts + p + 1
                      frame := e.frame + p * c.SERVER_QUERY_TIMEOUT }
                  deleted := true
                  events :=
                    [Event.RemoveQueriedServer
                      { e with
                        attempts := e.attempts + p + 1
                        frame := e.frame + p * c.SERVER_QUERY_TIMEOUT }] }) := by
  induction p with
  | zero =>
    intro e he hw0 n
    have hw : e.frame + c.SERVER_QUERY_TIMEOUT < 2 ^ 32 := by
      have h1 : (0 + 1) * c.SERVER_QUERY_TIMEOUT = c.SERVER_QUERY_TIMEOUT := by ring
      omega
    by_cases hn : c.SERVER_QUERY_TIMEOUT ≤ n
    · -- the timeout passes: the entry is removed at frame `e.frame + T`
      rcases DoAttempt_cases c { frame := e.frame + c.SERVER_QUERY_TIMEOUT, query_socket := socket } e
        with ⟨hg, _⟩ | ⟨_, _, h1⟩ | ⟨_, ha, _⟩
      · simp only [] at hg
        rw [Nat.mod_eq_of_lt hw] at hg
        omega
      · have hrun : DoAttempts c socket e (List.range' (e.frame + 1) n) =
            List.replicate (c.SERVER_QUERY_TIMEOUT - 1) { self := e, deleted := false, events := [] }
              ++ [{ self := { e with attempts := e.attempts + 1 }
                    deleted := true
                    events := [Event.RemoveQueriedServer { e with attempts := e.attempts + 1 }] }] := by
          rw [range_split_at_timeout e.frame c.SERVER_QUERY_TIMEOUT n hT hn,
            DoAttempts_quiet c socket e _ hw _ _ (by omega), DoAttempts_cons, h1]
          simp
        rw [hrun, totalSends_replicate_append]
        refine ⟨by simp [totalSends, DoAttemptResult.sends, Event.isSend],
          fun _ => by simp [totalSends, DoAttemptResult.sends, Event.isSend], fun _ => ⟨?_, ?_⟩⟩
        · simp; omega
        · rw [List.getLast?_concat]; simp
      · omega
    · -- the timeout does not pass: nothing happens
      rw [DoAttempts_quiet_all c socket e n (e.frame + 1) hw (by omega), totalSends_replicate]
      refine ⟨by omega, fun _ => rfl, fun h => ?_⟩
      omega
  | succ p ih =>
    intro e he hw0 n
    have hmul : (p + 1) * c.SERVER_QUERY_TIMEOUT
        = p * c.SERVER_QUERY_TIMEOUT + c.SERVER_QUERY_TIMEOUT := by ring
    have hmul2 : (p + 1 + 1) * c.SERVER_QUERY_TIMEOUT
        = p * c.SERVER_QUERY_TIMEOUT + c.SERVER_QUERY_TIMEOUT + c.SERVER_QUERY_TIMEOUT := by ring
    have hw : e.frame + c.SERVER_QUERY_TIMEOUT < 2 ^ 32 := by omega
    by_cases hn : c.SERVER_QUERY_TIMEOUT ≤ n
    · -- the timeout passes: a probe is sent at frame `e.frame + T`
      rcases DoAttempt_cases c { frame := e.frame + c.SERVER_QUERY_TIMEOUT, query_socket := socket } e
        with ⟨hg, _⟩ | ⟨_, ha, _⟩ | ⟨_, _, h1⟩
      · simp only [] at hg
        rw [Nat.mod_eq_of_lt hw] at hg
        omega
      · omega
      · have ih1 := ih
          { e with attempts := e.attempts + 1, frame := e.frame + c.SERVER_QUERY_TIMEOUT }
          (by simp only []; omega) (by simp only []; omega) (n - c.SERVER_QUERY_TIMEOUT)
        simp only [] at ih1 h1
        have hrun : DoAttempts c socket e (List.range' (e.frame + 1) n) =
            List.replicate (c.SERVER_QUERY_TIMEOUT - 1) { self := e, deleted := false, events := [] }
              ++ ({ self :=
                      { e with
                        attempts := e.attempts + 1
                        frame := e.frame + c.SERVER_QUERY_TIMEOUT }
                    deleted := false
                    events :=
                      [Event.SendFindGameServerPacket socket
                        { e with attempts := e.attempts + 1 }] } ::
                DoAttempts c socket
                  { e with attempts := e.attempts + 1, frame := e.frame + c.SERVER_QUERY_TIMEOUT }
                  (List.range' (e.frame + c.SERVER_QUERY_TIMEOUT + 1)
                    (n - c.SERVER_QUERY_TIMEOUT))) := by
          rw [range_split_at_timeout e.frame c.SERVER_QUERY_TIMEOUT n hT hn,
            DoAttempts_quiet c socket e _ hw _ _ (by omega), DoAttempts_cons, h1]
          simp
        rw [hrun, totalSends_replicate_append, totalSends_cons]
        have hs : (DoAttemptResult.sends
            { self :=
                { e with attempts := e.attempts + 1, frame := e.frame + c.SERVER_QUERY_TIMEOUT }
              deleted := false
              events :=
                [Event.SendFindGameServerPacket socket { e with attempts := e.attempts + 1 }] })
            = 1 := by
          simp [DoAttemptResult.sends, Event.isSend]
        rw [hs]
        refine ⟨by omega, fun h => ?_, fun h => ?_⟩
        · have := ih1.2.1 (by omega)
          omega
        · obtain ⟨hlen, hlast⟩ := ih1.2.2 (by omega)
          refine ⟨?_, ?_⟩
          · simp only [List.length_append, List.length_replicate, List.length_cons, hlen]
            omega
          · rw [List.getLast?_append_of_ne_nil _ (by simp), List.getLast?_cons, hlast]
            simp only [Option.getD_some, Option.some.injEq]
            have e1 : e.attempts + 1 + p + 1 = e.attempts + (p + 1) + 1 := by omega
            have e2 : e.frame + c.SERVER_QUERY_TIMEOUT + p * c.SERVER_QUERY_TIMEOUT
                = e.frame + (p + 1) * c.SERVER_QUERY_TIMEOUT := by omega
            rw [e1, e2]
    · -- the timeout does not pass: nothing happens
      rw [DoAttempts_quiet_all c socket e n (e.frame + 1) hw (by omega), totalSends_replicate]
      refine ⟨by omega, fun h => ?_, fun h => ?_⟩ <;> omega

/-- Facts about a call made on an entry within its budget: a call that deletes
the entry leaves the counter at the budget plus one, makes `RemoveQueriedServer`
with this entry its only call and sends nothing; a call that keeps the entry
leaves the counter within the budget; so a call that sends keeps the entry. -/
theorem DoAttempt_in_budget (c : Constants) (server : UDPServer) (e : MSQueriedServer)
    (h : e.attempts ≤ c.SERVER_QUERY_ATTEMPTS) :
    ((e.DoAttempt c server).deleted = true →
        (e.DoAttempt c server).self.attempts = c.SERVER_QUERY_ATTEMPTS + 1 ∧
          (e.DoAttempt c server).events
            = [Event.RemoveQueriedServer (e.DoAttempt c server).self] ∧
          (e.DoAttempt c server).sends = 0) ∧
      ((e.DoAttempt c server).deleted = false →
        (e.DoAttempt c server).self.attempts ≤ c.SERVER_QUERY_ATTEMPTS) ∧
      (0 < (e.DoAttempt c server).sends →
        (e.DoAttempt c server).deleted = false ∧
          (e.DoAttempt c server).self.attempts ≤ c.SERVER_QUERY_ATTEMPTS) := by
  rcases DoAttempt_cases c server e with ⟨_, h1⟩ | ⟨_, _, h1⟩ | ⟨_, _, h1⟩ <;> rw [h1] <;>
    simp [DoAttemptResult.sends, Event.isSend] <;> omega

/-- Every call of a series on an entry within its budget is a call on an entry
within its budget. -/
theorem DoAttempts_mem (c : Constants) (socket : Nat) (frames : List Nat) :
    ∀ e : MSQueriedServer, e.attempts ≤ c.SERVER_QUERY_ATTEMPTS →
      ∀ r ∈ DoAttempts c socket e frames,
        ∃ (e1 : MSQueriedServer) (f : Nat), e1.attempts ≤ c.SERVER_QUERY_ATTEMPTS ∧
          r = e1.DoAttempt c { frame := f, query_socket := socket } := by
  induction frames with
  | nil => intro e _ r hr; simp [DoAttempts] at hr
  | cons f fs ih =>
    intro e he r hr
    rw [DoAttempts_cons] at hr
    rcases List.mem_cons.mp hr with hr | hr
    · exact ⟨e, f, he, hr⟩
    · cases hdel : (e.DoAttempt c { frame := f, query_socket := socket }).deleted with
      | true => simp [hdel] at hr
      | false =>
        simp only [hdel, Bool.false_eq_true, if_false] at hr
        exact ih _ ((DoAttempt_attempts_le c _ e he).2 hdel) r hr

/-- The probes sent in a series of calls and the attempts already counted stay
within the budget together. -/
theorem DoAttempts_totalSends (c : Constants) (socket : Nat) (frames : List Nat) :
    ∀ e : MSQueriedServer, e.attempts ≤ c.SERVER_QUERY_ATTEMPTS →
      totalSends (DoAttempts c socket e frames) + e.attempts ≤ c.SERVER_QUERY_ATTEMPTS := by
  induction frames with
  | nil => intro e he; simpa [DoAttempts, totalSends] using he
  | cons f fs ih =>
    intro e he
    rw [DoAttempts_cons, totalSends_cons]
    rcases DoAttempt_cases c { frame := f, query_socket := socket } e with
      ⟨_, h1⟩ | ⟨_, _, h1⟩ | ⟨_, ha, h1⟩
    · rw [h1]
      have := ih e he
      simpa [DoAttemptResult.sends] using this
    · rw [h1]
      simpa [DoAttemptResult.sends, Event.isSend, totalSends] using he
    · rw [h1]
      have := ih { e with attempts := e.attempts + 1, frame := f } ha
      simp only [DoAttemptResult.sends, Bool.false_eq_true, if_false, List.filter, Event.isSend,
        List.length_cons, List.length_nil] at this ⊢
      omega

/-- A series of calls that ends with the removal of the entry has used up the
budget: the probes sent and the attempts counted before add up to it. -/
theorem DoAttempts_totalSends_of_deleted (c : Constants) (socket : Nat) (frames : List Nat) :
    ∀ e : MSQueriedServer, e.attempts ≤ c.SERVER_QUERY_ATTEMPTS →
      (∃ r ∈ DoAttempts c socket e frames, r.deleted = true) →
        totalSends (DoAttempts c socket e frames) + e.attempts = c.SERVER_QUERY_ATTEMPTS := by
  induction frames with
  | nil => intro e _ h; simp [DoAttempts] at h
  | cons f fs ih =>
    intro e he h
    rw [DoAttempts_cons] at h ⊢
    rw [totalSends_cons]
    rcases DoAttempt_cases c { frame := f, query_socket := socket } e with
      ⟨_, h1⟩ | ⟨_, ha, h1⟩ | ⟨_, ha, h1⟩
    · rw [h1] at h ⊢
      simp only [Bool.false_eq_true, if_false, List.mem_cons] at h ⊢
      obtain ⟨r, hr | hr, hd⟩ := h
      · subst hr
        exact Bool.noConfusion hd
      · have := ih e he ⟨r, hr, hd⟩
        simpa [DoAttemptResult.sends] using this
    · rw [h1]
      simp only [DoAttemptResult.sends, if_true, totalSends, List.map_nil, List.sum_nil,
        List.filter, Event.isSend, List.length_nil]
      omega
    · rw [h1] at h ⊢
      simp only [Bool.false_eq_true, if_false, List.mem_cons] at h ⊢
      obtain ⟨r, hr | hr, hd⟩ := h
      · subst hr
        exact Bool.noConfusion hd
      · have := ih { e with attempts := e.attempts + 1, frame := f } ha ⟨r, hr, hd⟩
        simp only [DoAttemptResult.sends, List.filter, Event.isSend, List.length_cons,
          List.length_nil] at this ⊢
        omega

/-- Counterexample to C1 as stated: the entry was last tried at frame
4294967293 and the timeout is 5, so the current frame 4294967295 is below
4294967293 + 5; but the `uint` sum wraps around to 2, the guard does not hold,
and the call increments `attempts`, sends a probe and stores the frame. -/
theorem C1_counterexample :
    (4294967295 : Nat) < wrapEntry.frame + exampleConstants.SERVER_QUERY_TIMEOUT ∧
      wrapEntry.DoAttempt exampleConstants { frame := 4294967295, query_socket := 1 } =
        { self := { wrapEntry with attempts := 1, frame := 4294967295 }
          deleted := false
          events := [Event.SendFindGameServerPacket 1 { wrapEntry with attempts := 1 }] } := by
  decide

/-- C1 (amended): when the current frame is below the frame of the last attempt
plus `SERVER_QUERY_TIMEOUT`, the sum taken as the code takes it, modulo
`2 ^ 32`, `DoAttempt` does nothing: all fields of the entry (attempts and
last-sent frame among them) are unchanged, the entry is not deleted and no call
is made on the server or the socket. The sum is the plain one whenever it is
below `2 ^ 32`. -/
theorem C1_DoAttempt_noop_before_timeout (c : Constants) (server : UDPServer)
    (e : MSQueriedServer)
    (h : server.frame < (e.frame + c.SERVER_QUERY_TIMEOUT) % 2 ^ 32) :
    e.DoAttempt c server = { self := e, deleted := false, events := [] } ∧
      (e.frame + c.SERVER_QUERY_TIMEOUT < 2 ^ 32 →
        (e.frame + c.SERVER_QUERY_TIMEOUT) % 2 ^ 32 = e.frame + c.SERVER_QUERY_TIMEOUT) := by
  refine ⟨?_, fun hw => Nat.mod_eq_of_lt hw⟩
  unfold MSQueriedServer.DoAttempt
  rw [if_pos h]

/-- Witness of C1 (amended): the example entry, last tried at frame 0, at
frame 4. -/
theorem C1_DoAttempt_noop_before_timeout_witness :
    (4 : Nat) < (exampleEntry.frame + exampleConstants.SERVER_QUERY_TIMEOUT) % 2 ^ 32 ∧
      exampleEntry.DoAttempt exampleConstants { frame := 4, query_socket := 1 } =
        { self := exampleEntry, deleted := false, events := [] } :=
  ⟨by decide,
    (C1_DoAttempt_noop_before_timeout exampleConstants { frame := 4, query_socket := 1 }
      exampleEntry (by decide)).1⟩

/-- C2: when the timeout has passed and the incremented counter is within
`SERVER_QUERY_ATTEMPTS`, `DoAttempt` increments `attempts` by one, makes exactly
one call, `SendFindGameServerPacket` on the server's query socket for this
entry, whose `server_address` is the one the entry had, sets the last-sent
frame to the current frame and does not delete the entry. -/
theorem C2_DoAttempt_resend (c : Constants) (server : UDPServer) (e : MSQueriedServer)
    (hframe : e.frame + c.SERVER_QUERY_TIMEOUT ≤ server.frame)
    (hattempts : e.attempts + 1 ≤ c.SERVER_QUERY_ATTEMPTS) :
    e.DoAttempt c server =
        { self := { e with attempts := e.attempts + 1, frame := server.frame }
          deleted := false
          events :=
            [Event.SendFindGameServerPacket server.query_socket
              { e with attempts := e.attempts + 1 }] } ∧
      (e.DoAttempt c server).sends = 1 ∧
      ({ e with attempts := e.attempts + 1 } : MSQueriedServer).server_address
        = e.server_address := by
  have hmod := Nat.mod_le (e.frame + c.SERVER_QUERY_TIMEOUT) (2 ^ 32)
  rcases DoAttempt_cases c server e with ⟨hg, _⟩ | ⟨_, ha, _⟩ | ⟨_, _, h1⟩
  · omega
  · omega
  · rw [h1]
    simp [DoAttemptResult.sends, Event.isSend]

/-- Witness of C2: the example entry at frame 5. -/
theorem C2_DoAttempt_resend_witness :
    exampleEntry.DoAttempt exampleConstants { frame := 5, query_socket := 1 } =
        { self := { exampleEntry with attempts := exampleEntry.attempts + 1, frame := 5 }
          deleted := false
          events :=
            [Event.SendFindGameServerPacket 1
              { exampleEntry with attempts := exampleEntry.attempts + 1 }] } ∧
      (exampleEntry.DoAttempt exampleConstants { frame := 5, query_socket := 1 }).sends = 1 ∧
      ({ exampleEntry with attempts := exampleEntry.attempts + 1 } :
          MSQueriedServer).server_address
        = exampleEntry.server_address :=
  C2_DoAttempt_resend exampleConstants { frame := 5, query_socket := 1 } exampleEntry
    (by decide) (by decide)

/-- C3: when the timeout has passed and the incremented counter exceeds
`SERVER_QUERY_ATTEMPTS`, `DoAttempt` makes exactly one call,
`RemoveQueriedServer` with this entry, and deletes the entry; no probe is sent
and the last-sent frame is not updated. -/
theorem C3_DoAttempt_exhausted (c : Constants) (server : UDPServer) (e : MSQueriedServer)
    (hframe : ¬ (e.frame + c.SERVER_QUERY_TIMEOUT > server.frame))
    (hattempts : e.attempts + 1 > c.SERVER_QUERY_ATTEMPTS) :
    e.DoAttempt c server =
        { self := { e with attempts := e.attempts + 1 }
          deleted := true
          events := [Event.RemoveQueriedServer { e with attempts := e.attempts + 1 }] } ∧
      (e.DoAttempt c server).sends = 0 ∧
      (e.DoAttempt c server).self.frame = e.frame := by
  have hmod := Nat.mod_le (e.frame + c.SERVER_QUERY_TIMEOUT) (2 ^ 32)
  rcases DoAttempt_cases c server e with ⟨hg, _⟩ | ⟨_, _, h1⟩ | ⟨_, ha, _⟩
  · omega
  · rw [h1]
    simp [DoAttemptResult.sends, Event.isSend]
  · omega

/-- Witness of C3: the example entry after three attempts, at frame 5. -/
theorem C3_DoAttempt_exhausted_witness :
    ({ exampleEntry with attempts := 3 } : MSQueriedServer).DoAttempt exampleConstants
          { frame := 5, query_socket := 1 } =
        { self := { exampleEntry with attempts := 3 + 1 }
          deleted := true
          events := [Event.RemoveQueriedServer { exampleEntry with attempts := 3 + 1 }] } ∧
      (({ exampleEntry with attempts := 3 } : MSQueriedServer).DoAttempt exampleConstants
          { frame := 5, query_socket := 1 }).sends = 0 ∧
      (({ exampleEntry with attempts := 3 } : MSQueriedServer).DoAttempt exampleConstants
          { frame := 5, query_socket := 1 }).self.frame = exampleEntry.frame :=
  C3_DoAttempt_exhausted exampleConstants { frame := 5, query_socket := 1 }
    { exampleEntry with attempts := 3 } (by decide) (by decide)

/-- C4: for an entry created with `attempts = 0` and any series of `DoAttempt`
calls at arbitrary frames, the attempt counter never decreases from one call to
the next and never exceeds `SERVER_QUERY_ATTEMPTS + 1`, the value it has in the
call that removes the entry. -/
theorem C4_attempts_monotone_bounded (c : Constants) (socket : Nat) (e : MSQueriedServer)
    (frames : List Nat) (hfresh : e.attempts = 0) :
    List.Chain (· ≤ ·) 0 ((DoAttempts c socket e frames).map (fun r => r.self.attempts)) ∧
      ∀ r ∈ DoAttempts c socket e frames, r.self.attempts ≤ c.SERVER_QUERY_ATTEMPTS + 1 := by
  have h := DoAttempts_attempts c socket frames e (by omega)
  rw [hfresh] at h
  exact ⟨h.1, fun r hr => (h.2 r hr).1⟩

/-- Witness of C4: the example entry offered frames out of order. -/
theorem C4_attempts_monotone_bounded_witness :
    exampleEntry.attempts = 0 ∧
      (List.Chain (· ≤ ·) 0
          ((DoAttempts exampleConstants 1 exampleEntry [7, 3, 12, 40, 41, 50, 60, 70]).map
            (fun r => r.self.attempts)) ∧
        ∀ r ∈ DoAttempts exampleConstants 1 exampleEntry [7, 3, 12, 40, 41, 50, 60, 70],
          r.self.attempts ≤ exampleConstants.SERVER_QUERY_ATTEMPTS + 1) :=
  ⟨by decide,
    C4_attempts_monotone_bounded exampleConstants 1 exampleEntry [7, 3, 12, 40, 41, 50, 60, 70]
      (by decide)⟩

/-- Counterexample to C5 as stated: with 3 attempts allowed the example entry,
offered frames 5, 10, 15 and 20, sends at the first three and is removed by the
fourth call; in that call `attempts` is 4, above `SERVER_QUERY_ATTEMPTS`, and
the entry is handed to `RemoveQueriedServer` with this value. -/
theorem C5_counterexample :
    exampleEntry.attempts = 0 ∧
      (DoAttempts exampleConstants 1 exampleEntry [5, 10, 15, 20]).getLast? =
        some
          { self := { exampleEntry with attempts := 4, frame := 15 }
            deleted := true
            events :=
              [Event.RemoveQueriedServer { exampleEntry with attempts := 4, frame := 15 }] } ∧
      exampleConstants.SERVER_QUERY_ATTEMPTS < 4 := by
  decide

/-- C5 (amended): for an entry created with `attempts = 0` and any series of
`DoAttempt` calls, `attempts` never exceeds `SERVER_QUERY_ATTEMPTS + 1`; after
every call that leaves the entry in existence it is at most
`SERVER_QUERY_ATTEMPTS`; it exceeds that only in the call that removes the
entry, where it is `SERVER_QUERY_ATTEMPTS + 1` and the single call made is
`RemoveQueriedServer` with this entry, so that call sends nothing; every call
that sends a probe leaves the entry in existence with `attempts` within
`SERVER_QUERY_ATTEMPTS`; no more than `SERVER_QUERY_ATTEMPTS` probes are sent in
the whole series, and exactly that many have been sent once the entry is
removed, so that none can follow. -/
theorem C5_attempts_within_budget (c : Constants) (socket : Nat) (e : MSQueriedServer)
    (frames : List Nat) (hfresh : e.attempts = 0) :
    (∀ r ∈ DoAttempts c socket e frames, r.self.attempts ≤ c.SERVER_QUERY_ATTEMPTS + 1) ∧
      (∀ r ∈ DoAttempts c socket e frames,
        r.deleted = false → r.self.attempts ≤ c.SERVER_QUERY_ATTEMPTS) ∧
      (∀ r ∈ DoAttempts c socket e frames,
        r.deleted = true →
          r.self.attempts = c.SERVER_QUERY_ATTEMPTS + 1 ∧
            r.events = [Event.RemoveQueriedServer r.self] ∧ r.sends = 0) ∧
      (∀ r ∈ DoAttempts c socket e frames,
        0 < r.sends → r.deleted = false ∧ r.self.attempts ≤ c.SERVER_QUERY_ATTEMPTS) ∧
      totalSends (DoAttempts c socket e frames) ≤ c.SERVER_QUERY_ATTEMPTS ∧
      ((∃ r ∈ DoAttempts c socket e frames, r.deleted = true) →
        totalSends (DoAttempts c socket e frames) = c.SERVER_QUERY_ATTEMPTS) := by
  have he : e.attempts ≤ c.SERVER_QUERY_ATTEMPTS := by omega
  have hmem := DoAttempts_mem c socket frames e he
  refine ⟨fun r hr => ((DoAttempts_attempts c socket frames e he).2 r hr).1,
    fun r hr => ?_, fun r hr => ?_, fun r hr => ?_, ?_, fun hdel => ?_⟩
  · obtain ⟨e1, f, h1, rfl⟩ := hmem r hr
    exact (DoAttempt_in_budget c _ e1 h1).2.1
  · obtain ⟨e1, f, h1, rfl⟩ := hmem r hr
    exact (DoAttempt_in_budget c _ e1 h1).1
  · obtain ⟨e1, f, h1, rfl⟩ := hmem r hr
    exact (DoAttempt_in_budget c _ e1 h1).2.2
  · have := DoAttempts_totalSends c socket frames e he
    omega
  · have := DoAttempts_totalSends_of_deleted c socket frames e he hdel
    omega

/-- Witness of C5 (amended): the example entry offered ten frames sends no more
than three probes. -/
theorem C5_attempts_within_budget_witness :
    exampleEntry.attempts = 0 ∧
      totalSends (DoAttempts exampleConstants 1 exampleEntry
          [5, 10, 15, 20, 25, 30, 35, 40, 45, 50])
        ≤ exampleConstants.SERVER_QUERY_ATTEMPTS :=
  ⟨by decide,
    (C5_attempts_within_budget exampleConstants 1 exampleEntry
      [5, 10, 15, 20, 25, 30, 35, 40, 45, 50] (by decide)).2.2.2.2.1⟩

/-- Counterexample to C6 as stated, in two ways. With a timeout of 5 the example
entry (last tried at frame 0, no attempts) is offered frame 3 and then frame
3 + 4: the first call does nothing, since the timeout has not passed; the second
call passes the guard, sends one probe and raises `attempts` from 0 to 1. And
the entry last tried at frame 4294967293 is offered frames 4294967294 and
4294967294 + 1: both sums wrap around, both calls pass the guard, and two probes
are sent. -/
theorem C6_counterexample :
    (4 : Nat) < exampleConstants.SERVER_QUERY_TIMEOUT ∧
      DoAttempts exampleConstants 1 exampleEntry [3, 3 + 4] =
        [{ self := exampleEntry, deleted := false, events := [] },
          { self := { exampleEntry with attempts := 1, frame := 7 }
            deleted := false
            events := [Event.SendFindGameServerPacket 1 { exampleEntry with attempts := 1 }] }] ∧
      exampleEntry.attempts = 0 ∧
      (1 : Nat) < exampleConstants.SERVER_QUERY_TIMEOUT ∧
      totalSends (DoAttempts exampleConstants 1 wrapEntry [4294967294, 4294967294 + 1]) = 2 := by
  decide

/-- C6 (amended): for every entry and all frames `f` and `d` with
`d < SERVER_QUERY_TIMEOUT` and `f + SERVER_QUERY_TIMEOUT < 2 ^ 32` (the sum
formed after an attempt at frame `f` does not wrap around), calls at frame `f`
and then at frame `f + d` send at most one probe in total; and when both calls
are made, the second leaves `attempts` unchanged exactly when the first call
passed the timeout guard or the guard holds the second call back as well, the
guard being the one the code computes, with the sum modulo `2 ^ 32`. -/
theorem C6_two_calls_within_timeout (c : Constants) (socket : Nat) (e : MSQueriedServer)
    (f d : Nat) (hd : d < c.SERVER_QUERY_TIMEOUT)
    (hnowrap : f + c.SERVER_QUERY_TIMEOUT < 2 ^ 32) :
    totalSends (DoAttempts c socket e [f, f + d]) ≤ 1 ∧
      ∀ r1 r2, DoAttempts c socket e [f, f + d] = [r1, r2] →
        (r2.self.attempts = r1.self.attempts ↔
          ((e.frame + c.SERVER_QUERY_TIMEOUT) % 2 ^ 32 ≤ f ∨
            f + d < (e.frame + c.SERVER_QUERY_TIMEOUT) % 2 ^ 32)) := by
  rcases DoAttempt_cases c { frame := f, query_socket := socket } e with
    ⟨hg, h1⟩ | ⟨hg, _, h1⟩ | ⟨hg, _, h1⟩
  · -- the first call does nothing
    simp only [] at hg
    have hrun : DoAttempts c socket e [f, f + d] =
        [{ self := e, deleted := false, events := [] },
          e.DoAttempt c { frame := f + d, query_socket := socket }] := by
      simp [DoAttempts, h1]
    rw [hrun]
    refine ⟨?_, ?_⟩
    · have := DoAttempt_sends_le_one c { frame := f + d, query_socket := socket } e
      simpa [totalSends, DoAttemptResult.sends] using this
    · intro r1 r2 heq
      simp only [List.cons.injEq, and_true] at heq
      obtain ⟨hr1, hr2⟩ := heq
      subst hr1 hr2
      rcases DoAttempt_cases c { frame := f + d, query_socket := socket } e with
        ⟨hg2, h2⟩ | ⟨hg2, _, h2⟩ | ⟨hg2, _, h2⟩ <;> simp only [] at hg2 <;> rw [h2] <;>
        simp <;> omega
  · -- the first call removes the entry
    have hrun : DoAttempts c socket e [f, f + d] =
        [e.DoAttempt c { frame := f, query_socket := socket }] := by
      simp [DoAttempts, h1]
    rw [hrun, h1]
    refine ⟨by simp [totalSends, DoAttemptResult.sends, Event.isSend], ?_⟩
    intro r1 r2 heq
    simp at heq
  · -- the first call sends; the second comes too early
    simp only [] at hg
    have h2 := DoAttempt_of_lt c { frame := f + d, query_socket := socket }
      { e with attempts := e.attempts + 1, frame := f }
      (by
        show f + d < (f + c.SERVER_QUERY_TIMEOUT) % 2 ^ 32
        rw [Nat.mod_eq_of_lt hnowrap]
        omega)
    have hrun : DoAttempts c socket e [f, f + d] =
        [e.DoAttempt c { frame := f, query_socket := socket },
          { self := { e with attempts := e.attempts + 1, frame := f }
            deleted := false, events := [] }] := by
      simp [DoAttempts, h1, h2]
    rw [hrun, h1]
    refine ⟨by simp [totalSends, DoAttemptResult.sends, Event.isSend], ?_⟩
    intro r1 r2 heq
    simp only [List.cons.injEq, and_true] at heq
    obtain ⟨hr1, hr2⟩ := heq
    subst hr1 hr2
    simp only [true_iff]
    exact Or.inl hg

/-- Witness of C6 (amended): the example entry offered frames 5 and 5 + 4. -/
theorem C6_two_calls_within_timeout_witness :
    (4 : Nat) < exampleConstants.SERVER_QUERY_TIMEOUT ∧
      5 + exampleConstants.SERVER_QUERY_TIMEOUT < 2 ^ 32 ∧
      totalSends (DoAttempts exampleConstants 1 exampleEntry [5, 5 + 4]) ≤ 1 :=
  ⟨by decide, by decide,
    (C6_two_calls_within_timeout exampleConstants 1 exampleEntry 5 4 (by decide)
      (by decide)).1⟩

/-- Counterexample to C7 as stated: the entry has `attempts = 0`, was last tried
at frame 4294967293 and the timeout is 5. The call at the last-sent frame
itself, a frame below the last-sent frame plus the timeout, passes the guard,
because the `uint` sum wraps around to 2, and sends a probe. -/
theorem C7_counterexample :
    0 < exampleConstants.SERVER_QUERY_TIMEOUT ∧ wrapEntry.attempts = 0 ∧
      1 ≤ exampleConstants.SERVER_QUERY_TIMEOUT ∧
      DoAttempts exampleConstants 1 wrapEntry (List.range' wrapEntry.frame 1) =
        [{ self := { wrapEntry with attempts := 1 }
           deleted := false
           events := [Event.SendFindGameServerPacket 1 { wrapEntry with attempts := 1 }] }] := by
  decide

/-- C7 (amended): an entry with `attempts = 0` is offered `DoAttempt` once per
frame from its last-sent frame `f0 = e.frame` on, with `SERVER_QUERY_TIMEOUT > 0`
and `f0 + (SERVER_QUERY_ATTEMPTS + 1) * SERVER_QUERY_TIMEOUT < 2 ^ 32` (the
frame counter does not wrap around before the schedule ends). Then
(1) every call at a frame below `f0 + SERVER_QUERY_TIMEOUT` does nothing;
(2) if at least one attempt is allowed, the call at frame
`f0 + SERVER_QUERY_TIMEOUT` is the first to send a probe and leaves
`attempts = 1`; (3) at most `SERVER_QUERY_ATTEMPTS` probes are ever sent, and
(4) exactly that many once frame `f0 + SERVER_QUERY_ATTEMPTS * SERVER_QUERY_TIMEOUT`
has been offered; (5) once one more timeout has passed the series has ended with
the call that removes the entry, at frame
`f0 + (SERVER_QUERY_ATTEMPTS + 1) * SERVER_QUERY_TIMEOUT`, whatever number of
frames is offered afterwards. -/
theorem C7_retry_schedule (c : Constants) (socket : Nat) (e : MSQueriedServer)
    (hT : 0 < c.SERVER_QUERY_TIMEOUT) (hfresh : e.attempts = 0)
    (hnowrap : e.frame + (c.SERVER_QUERY_ATTEMPTS + 1) * c.SERVER_QUERY_TIMEOUT < 2 ^ 32) :
    (∀ n, n ≤ c.SERVER_QUERY_TIMEOUT →
        DoAttempts c socket e (List.range' e.frame n) =
          List.replicate n { self := e, deleted := false, events := [] }) ∧
      (1 ≤ c.SERVER_QUERY_ATTEMPTS →
        DoAttempts c socket e (List.range' e.frame (c.SERVER_QUERY_TIMEOUT + 1)) =
          List.replicate c.SERVER_QUERY_TIMEOUT { self := e, deleted := false, events := [] } ++
            [{ self := { e with attempts := 1, frame := e.frame + c.SERVER_QUERY_TIMEOUT }
               deleted := false
               events := [Event.SendFindGameServerPacket socket { e with attempts := 1 }] }]) ∧
      (∀ n, totalSends (DoAttempts c socket e (List.range' e.frame n))
        ≤ c.SERVER_QUERY_ATTEMPTS) ∧
      (∀ n, c.SERVER_QUERY_ATTEMPTS * c.SERVER_QUERY_TIMEOUT + 1 ≤ n →
        totalSends (DoAttempts c socket e (List.range' e.frame n)) = c.SERVER_QUERY_ATTEMPTS) ∧
      (∀ n, (c.SERVER_QUERY_ATTEMPTS + 1) * c.SERVER_QUERY_TIMEOUT + 1 ≤ n →
        (DoAttempts c socket e (List.range' e.frame n)).length
            = (c.SERVER_QUERY_ATTEMPTS + 1) * c.SERVER_QUERY_TIMEOUT + 1 ∧
          (DoAttempts c socket e (List.range' e.frame n)).getLast? =
            some
              { self :=
                  { e with
                    attempts := c.SERVER_QUERY_ATTEMPTS + 1
                    frame := e.frame + c.SERVER_QUERY_ATTEMPTS * c.SERVER_QUERY_TIMEOUT }
                deleted := true
                events :=
                  [Event.RemoveQueriedServer
                    { e with
                      attempts := c.SERVER_QUERY_ATTEMPTS + 1
                      frame := e.frame + c.SERVER_QUERY_ATTEMPTS * c.SERVER_QUERY_TIMEOUT }] }) := by
  have hmul : (c.SERVER_QUERY_ATTEMPTS + 1) * c.SERVER_QUERY_TIMEOUT
      = c.SERVER_QUERY_ATTEMPTS * c.SERVER_QUERY_TIMEOUT + c.SERVER_QUERY_TIMEOUT := by ring
  have hw : e.frame + c.SERVER_QUERY_TIMEOUT < 2 ^ 32 := by omega
  -- the call at the last-sent frame itself does nothing; the schedule follows
  have hfirst : ∀ k, DoAttempts c socket e (List.range' e.frame (k + 1)) =
      { self := e, deleted := false, events := [] } ::
        DoAttempts c socket e (List.range' (e.frame + 1) k) := by
    intro k
    have h1 := DoAttempt_of_lt c { frame := e.frame, query_socket := socket } e
      (by simp only []; rw [Nat.mod_eq_of_lt hw]; omega)
    rw [List.range'_succ, DoAttempts_cons, h1]
    simp
  have hsched := DoAttempts_schedule c socket hT c.SERVER_QUERY_ATTEMPTS e (by omega) hnowrap
  have hnoop : DoAttemptResult.sends { self := e, deleted := false, events := [] } = 0 := by
    simp [DoAttemptResult.sends]
  refine ⟨fun n hn => DoAttempts_quiet_all c socket e n e.frame hw (by omega), fun hA => ?_,
    fun n => ?_, fun n hn => ?_, fun n hn => ?_⟩
  · rcases DoAttempt_cases c { frame := e.frame + c.SERVER_QUERY_TIMEOUT, query_socket := socket } e
      with ⟨hg, _⟩ | ⟨_, ha, _⟩ | ⟨_, _, h1⟩
    · simp only [] at hg
      rw [Nat.mod_eq_of_lt hw] at hg
      omega
    · omega
    · rw [List.range'_concat, DoAttempts_quiet c socket e _ hw _ _ (by omega), Nat.one_mul,
        DoAttempts_cons, h1]
      simp [DoAttempts, hfresh]
  · cases n with
    | zero => simp [DoAttempts, totalSends]
    | succ k =>
      rw [hfirst, totalSends_cons, hnoop]
      have := (hsched k).1
      omega
  · obtain ⟨k, rfl⟩ : ∃ k, n = k + 1 := ⟨n - 1, by omega⟩
    rw [hfirst, totalSends_cons, hnoop, (hsched k).2.1 (by omega)]
    omega
  · obtain ⟨k, rfl⟩ : ∃ k, n = k + 1 := ⟨n - 1, by omega⟩
    obtain ⟨hlen, hlast⟩ := (hsched k).2.2 (by omega)
    rw [hfirst]
    refine ⟨by simp [hlen], ?_⟩
    rw [List.getLast?_cons, hlast]
    simp [hfresh]

/-- Witness of C7 (amended): the example entry, with a timeout of 5 frames and 3
attempts, offered frames 0 to 29, has sent exactly 3 probes. -/
theorem C7_retry_schedule_witness :
    0 < exampleConstants.SERVER_QUERY_TIMEOUT ∧ exampleEntry.attempts = 0 ∧
      exampleEntry.frame
          + (exampleConstants.SERVER_QUERY_ATTEMPTS + 1) * exampleConstants.SERVER_QUERY_TIMEOUT
        < 2 ^ 32 ∧
      totalSends (DoAttempts exampleConstants 1 exampleEntry (List.range' exampleEntry.frame 30))
        = exampleConstants.SERVER_QUERY_ATTEMPTS :=
  ⟨by decide, by decide, by decide,
    (C7_retry_schedule exampleConstants 1 exampleEntry (by decide) (by decide)
      (by decide)).2.2.2.1 30 (by decide)⟩

/-! ## Theorems: session keys -/

/-- The masking `random() & 0xFF` keeps the low 8 bits. -/
theorem and_0xFF (r : Nat) : r &&& 0xFF = r % 256 :=
  Nat.and_pow_two_sub_one_eq_mod r 8

/-- One call of `NextSessionKey` that does not wrap around `2 ^ 64`. -/
theorem NextSessionKey_of_lt (ms : MasterServer) (r : Nat)
    (h : ms.session_key + (1 + (r &&& 0xFF)) < 2 ^ 64) :
    (ms.NextSessionKey r).1 = ms.session_key + (1 + (r &&& 0xFF)) ∧
      (ms.NextSessionKey r).2.session_key = ms.session_key + (1 + (r &&& 0xFF)) := by
  simp only [MasterServer.NextSessionKey, Nat.mod_eq_of_lt h, and_self]

/-- A series of `NextSessionKey` calls that does not wrap around `2 ^ 64`: each
key lies 1 to 256 above its predecessor, and the final counter is the last key
issued. -/
theorem NextSessionKeys_chain (draws : List Nat) :
    ∀ ms : MasterServer,
      ms.session_key + (draws.map (fun r => 1 + (r &&& 0xFF))).sum < 2 ^ 64 →
        (NextSessionKeys ms draws).1.length = draws.length ∧
          List.Chain (fun a b => a + 1 ≤ b ∧ b ≤ a + 256) ms.session_key
            (NextSessionKeys ms draws).1 ∧
          (NextSessionKeys ms draws).2.session_key
            = ((NextSessionKeys ms draws).1.getLast?).getD ms.session_key := by
  induction draws with
  | nil => intro ms _; simp [NextSessionKeys]
  | cons r rs ih =>
    intro ms h
    simp only [List.map_cons, List.sum_cons] at h
    obtain ⟨h1, h2⟩ := NextSessionKey_of_lt ms r (by omega)
    obtain ⟨ihlen, ihchain, ihlast⟩ := ih (ms.NextSessionKey r).2 (by rw [h2]; omega)
    have hr := and_0xFF r
    have hmod : r % 256 < 256 := Nat.mod_lt _ (by decide)
    refine ⟨by simp [NextSessionKeys, ihlen], ?_, ?_⟩
    · simp only [NextSessionKeys]
      refine List.Chain.cons ⟨by omega, by omega⟩ ?_
      rw [h1, ← h2]
      exact ihchain
    · simp only [NextSessionKeys]
      rw [ihlast, List.getLast?_cons, h2, h1]
      simp

/-- Every key returned is a `uint64` value. -/
theorem NextSessionKeys_lt (draws : List Nat) :
    ∀ ms : MasterServer, ∀ k ∈ (NextSessionKeys ms draws).1, k < 2 ^ 64 := by
  induction draws with
  | nil => intro ms k hk; simp [NextSessionKeys] at hk
  | cons r rs ih =>
    intro ms k hk
    simp only [NextSessionKeys, List.mem_cons] at hk
    rcases hk with hk | hk
    · rw [hk]
      exact Nat.mod_lt _ (by decide)
    · exact ih _ k hk

/-- Counterexample to C8 as stated: from the starting counter `2 ^ 64 - 1`, with
`random()` returning 0, `NextSessionKey` adds 1 in `uint64` arithmetic and
returns 0, which does not exceed the starting counter. -/
theorem C8_counterexample :
    (({ exampleMasterServer with session_key := 18446744073709551615 } :
        MasterServer).NextSessionKey 0).1 = 0 ∧
      ¬ (18446744073709551615 <
        (({ exampleMasterServer with session_key := 18446744073709551615 } :
          MasterServer).NextSessionKey 0).1) := by
  decide

/-- C8 (amended): for every starting counter and every sequence of `N` values
returned by `random()` for which the `uint64` counter does not wrap around (the
starting counter plus all the increments stays below `2 ^ 64`), `N` successive
`NextSessionKey` calls return `N` keys, all below `2 ^ 64`, each exceeding the
previous one (the first the starting counter) by at least 1 and at most 256; the
keys are strictly increasing, so no key is issued twice, and all exceed the
starting counter; the counter ends as the last key returned. Every single call stores the value it
returns as the new counter. -/
theorem C8_session_keys_increase (ms : MasterServer) (draws : List Nat)
    (hnowrap : ms.session_key + (draws.map (fun r => 1 + (r &&& 0xFF))).sum < 2 ^ 64) :
    (NextSessionKeys ms draws).1.length = draws.length ∧
      List.Chain (fun a b => a + 1 ≤ b ∧ b ≤ a + 256) ms.session_key
        (NextSessionKeys ms draws).1 ∧
      (∀ k ∈ (NextSessionKeys ms draws).1, k < 2 ^ 64) ∧
      List.Pairwise (· < ·) (ms.session_key :: (NextSessionKeys ms draws).1) ∧
      (NextSessionKeys ms draws).1.Nodup ∧
      (NextSessionKeys ms draws).2.session_key
        = ((NextSessionKeys ms draws).1.getLast?).getD ms.session_key ∧
      ∀ (ms1 : MasterServer) (r : Nat),
        (ms1.NextSessionKey r).2.session_key = (ms1.NextSessionKey r).1 := by
  obtain ⟨hlen, hchain, hlast⟩ := NextSessionKeys_chain draws ms hnowrap
  have hlt : List.Chain (· < ·) ms.session_key (NextSessionKeys ms draws).1 :=
    hchain.imp (fun h => by omega)
  have hpw : List.Pairwise (· < ·) (ms.session_key :: (NextSessionKeys ms draws).1) :=
    List.chain_iff_pairwise.mp hlt
  refine ⟨hlen, hchain, NextSessionKeys_lt draws ms, hpw, ?_, hlast, fun ms1 r => rfl⟩
  exact (List.pairwise_cons.mp hpw).2.imp (fun h => Nat.ne_of_lt h)

/-- Witness of C8 (amended): three keys from the example master server. -/
theorem C8_session_keys_increase_witness :
    exampleMasterServer.session_key + ([0, 255, 1000].map (fun r => 1 + (r &&& 0xFF))).sum < 2 ^ 64 ∧
      (NextSessionKeys exampleMasterServer [0, 255, 1000]).1.Nodup :=
  ⟨by decide,
    (C8_session_keys_increase exampleMasterServer [0, 255, 1000] (by decide)).2.2.2.2.1⟩

/-! ## Theorems: the server list packet -/

/-- Reading back the element just written. -/
theorem SLTArray.get_set_same {α : Type} (a : SLTArray α) (type : ServerListType) (v : α) :
    (a.set type v).get type = v := by
  cases type <;> rfl

/-- Writing one element leaves the other as it was. -/
theorem SLTArray.get_set_other {α : Type} (a : SLTArray α) (type other : ServerListType) (v : α)
    (h : other ≠ type) : (a.set type v).get other = a.get other := by
  cases type <;> cases other <;> first | rfl | exact absurd rfl h

/-- The two ways a `GetServerListPacket` call can go: a rebuild, when the list is
to be updated or its next frame lies before the current frame, and the return
of the cached packet otherwise. -/
theorem GetServerListPacket_cases (c : Constants) (sql : SQL) (ms : MasterServer)
    (type : ServerListType) :
    ((ms.update_serverlist_packet.get type = true ∨
          ms.next_serverlist_frame.get type < ms.frame) ∧
        ms.GetServerListPacket c sql type =
          { ret := some (rebuiltPacket c sql type)
            state :=
              { ms with
                serverlist_packet := ms.serverlist_packet.set type (some (rebuiltPacket c sql type))
                next_serverlist_frame :=
                  ms.next_serverlist_frame.set type
                    ((ms.frame + c.GAME_SERVER_LIST_AGE) % 2 ^ 32)
                update_serverlist_packet := ms.update_serverlist_packet.set type false }
            queries := [(max_count c type, decide (type = .SLT_IPv6))] }) ∨
      (¬ (ms.update_serverlist_packet.get type = true ∨
            ms.next_serverlist_frame.get type < ms.frame) ∧
        ms.GetServerListPacket c sql type =
          { ret := ms.serverlist_packet.get type, state := ms, queries := [] }) := by
  by_cases h : ms.update_serverlist_packet.get type = true ∨
      ms.next_serverlist_frame.get type < ms.frame
  · left
    refine ⟨h, ?_⟩
    have hc : (ms.update_serverlist_packet.get type
        || decide (ms.next_serverlist_frame.get type < ms.frame)) = true := by
      simpa using h
    simp only [MasterServer.GetServerListPacket, hc, if_true, SLTArray.get_set_same,
      rebuiltPacket]
  · right
    refine ⟨h, ?_⟩
    have hc : ¬ ((ms.update_serverlist_packet.get type
        || decide (ms.next_serverlist_frame.get type < ms.frame)) = true) := by
      simpa using h
    simp only [MasterServer.GetServerListPacket, hc, Bool.false_eq_true, if_false]

/-- Counterexample to C9 as stated: the IPv4 list is not to be updated and the
current frame 10 equals `next_serverlist_frame`, so `current_frame >=
next_serverlist_frame` holds; yet the call does not rebuild: it does not ask the
SQL backend, returns the cached packet and leaves the state as it is. -/
theorem C9_counterexample :
    exampleCachedServer.update_serverlist_packet.get .SLT_IPv4 = false ∧
      exampleCachedServer.frame ≥ exampleCachedServer.next_serverlist_frame.get .SLT_IPv4 ∧
      exampleCachedServer.GetServerListPacket exampleConstants exampleSQL .SLT_IPv4 =
        { ret := exampleCachedServer.serverlist_packet.get .SLT_IPv4
          state := exampleCachedServer
          queries := [] } := by
  decide

/-- C9 (amended): for every family, cache state and current frame,
`GetServerListPacket` rebuilds the packet (it asks the SQL backend, exactly
once) if and only if the family's `update_serverlist_packet` flag is set or
`next_serverlist_frame < current_frame`; in every other case it returns the
cached packet, asks nothing and leaves the whole state unchanged. -/
theorem C9_rebuild_condition (c : Constants) (sql : SQL) (ms : MasterServer)
    (type : ServerListType) :
    ((ms.GetServerListPacket c sql type).queries ≠ [] ↔
        (ms.update_serverlist_packet.get type = true ∨
          ms.next_serverlist_frame.get type < ms.frame)) ∧
      ((ms.update_serverlist_packet.get type = true ∨
          ms.next_serverlist_frame.get type < ms.frame) →
        (ms.GetServerListPacket c sql type).queries
            = [(max_count c type, decide (type = .SLT_IPv6))] ∧
          (ms.GetServerListPacket c sql type).ret = some (rebuiltPacket c sql type) ∧
          (ms.GetServerListPacket c sql type).state.serverlist_packet.get type
            = some (rebuiltPacket c sql type)) ∧
      (¬ (ms.update_serverlist_packet.get type = true ∨
            ms.next_serverlist_frame.get type < ms.frame) →
        ms.GetServerListPacket c sql type =
          { ret := ms.serverlist_packet.get type, state := ms, queries := [] }) := by
  rcases GetServerListPacket_cases c sql ms type with ⟨hc, h⟩ | ⟨hc, h⟩
  · rw [h]
    refine ⟨⟨fun _ => hc, fun _ => by simp⟩, fun _ => ⟨rfl, rfl, ?_⟩, fun hn => absurd hc hn⟩
    simp only [SLTArray.get_set_same]
  · rw [h]
    exact ⟨⟨fun hq => absurd rfl hq, fun hr => absurd hr hc⟩, fun hr => absurd hr hc,
      fun _ => rfl⟩

/-- Counterexample to C10 as stated: with lists aged 10 frames the master server
rebuilds its IPv4 list at frame 4294967290; the `uint` sum
`frame + GAME_SERVER_LIST_AGE` wraps around and 4 is stored as the next frame.
The call at frame 4294967291, within 10 frames of the rebuild and with the flag
clear, finds the next frame below the current one and rebuilds again: it asks
the SQL backend. -/
theorem C10_counterexample :
    (wrapMasterServer.GetServerListPacket exampleConstants exampleSQL .SLT_IPv4).queries
        = [(242, false)] ∧
      (wrapMasterServer.GetServerListPacket exampleConstants exampleSQL
          .SLT_IPv4).state.next_serverlist_frame.get .SLT_IPv4 = 4 ∧
      wrapMasterServer.frame ≤ 4294967291 ∧
      4294967291 < wrapMasterServer.frame + exampleConstants.GAME_SERVER_LIST_AGE ∧
      (({ (wrapMasterServer.GetServerListPacket exampleConstants exampleSQL .SLT_IPv4).state
            with frame := 4294967291 } : MasterServer).GetServerListPacket exampleConstants
          emptySQL .SLT_IPv4).queries = [(242, false)] := by
  decide

/-- C10 (amended): if a call for a family at frame `f0` rebuilt the packet, with
`f0 + GAME_SERVER_LIST_AGE < 2 ^ 32` (the sum stored as the next frame does not
wrap around), and the next call for that family comes at a frame `f1` with
`f0 <= f1 < f0 + GAME_SERVER_LIST_AGE` in a state in which that family's packet,
update flag and next frame are as the first call left them, then the second
call returns the very packet the first call returned, does not ask the SQL
backend and changes nothing in the state, whatever the SQL backend would
answer by then. -/
theorem C10_cache_hit (c : Constants) (sql1 sql2 : SQL) (ms ms2 : MasterServer)
    (type : ServerListType)
    (hrebuilt : (ms.GetServerListPacket c sql1 type).queries ≠ [])
    (hnowrap : ms.frame + c.GAME_SERVER_LIST_AGE < 2 ^ 32)
    (hframe : ms.frame ≤ ms2.frame ∧ ms2.frame < ms.frame + c.GAME_SERVER_LIST_AGE)
    (hpacket : ms2.serverlist_packet.get type
      = (ms.GetServerListPacket c sql1 type).state.serverlist_packet.get type)
    (hflag : ms2.update_serverlist_packet.get type
      = (ms.GetServerListPacket c sql1 type).state.update_serverlist_packet.get type)
    (hnext : ms2.next_serverlist_frame.get type
      = (ms.GetServerListPacket c sql1 type).state.next_serverlist_frame.get type) :
    (ms2.GetServerListPacket c sql2 type).ret = (ms.GetServerListPacket c sql1 type).ret ∧
      (ms2.GetServerListPacket c sql2 type).queries = [] ∧
      (ms2.GetServerListPacket c sql2 type).state = ms2 := by
  rcases GetServerListPacket_cases c sql1 ms type with ⟨_, h1⟩ | ⟨_, h1⟩
  · rw [h1] at hpacket hflag hnext ⊢
    simp only [SLTArray.get_set_same] at hpacket hflag hnext
    rw [Nat.mod_eq_of_lt hnowrap] at hnext
    rcases GetServerListPacket_cases c sql2 ms2 type with ⟨hc, _⟩ | ⟨_, h2⟩
    · rw [hflag, hnext] at hc
      rcases hc with hc | hc
      · exact absurd hc (by decide)
      · omega
    · rw [h2]
      exact ⟨hpacket, rfl, rfl⟩
  · rw [h1] at hrebuilt
    exact absurd rfl hrebuilt

/-- Witness of C10 (amended): the example master server builds its IPv4 list at
frame 0 from two servers; at frame 9 the backend knows no server any more, and
the call returns the packet built at frame 0. -/
theorem C10_cache_hit_witness :
    (exampleMasterServer.GetServerListPacket exampleConstants exampleSQL .SLT_IPv4).queries ≠ [] ∧
      exampleMasterServer.frame + exampleConstants.GAME_SERVER_LIST_AGE < 2 ^ 32 ∧
      (({ (exampleMasterServer.GetServerListPacket exampleConstants exampleSQL .SLT_IPv4).state
            with frame := 9 } : MasterServer).GetServerListPacket exampleConstants emptySQL
          .SLT_IPv4).ret
        = (exampleMasterServer.GetServerListPacket exampleConstants exampleSQL .SLT_IPv4).ret :=
  ⟨by decide, by decide,
    (C10_cache_hit exampleConstants exampleSQL emptySQL exampleMasterServer
      { (exampleMasterServer.GetServerListPacket exampleConstants exampleSQL .SLT_IPv4).state
          with frame := 9 }
      .SLT_IPv4 (by decide) (by decide) (by decide) rfl rfl rfl).1⟩

/-! ## Theorems: contents and size of the server list packet -/

/-- The fill loop appends the two fields of every server, in order, and leaves
the packet type alone. -/
theorem fill_loop_eq (l : List NetworkAddress) :
    ∀ p : Packet,
      l.foldl (fun p s => (p.Send_uint32 s.s_addr).Send_uint16 s.port) p =
        { type := p.type, payload := p.payload ++ l.flatMap encodeServer } := by
  induction l with
  | nil => intro p; simp
  | cons s l ih =>
    intro p
    rw [List.foldl_cons, ih]
    simp [Packet.Send_uint32, Packet.Send_uint16, encodeServer, List.flatMap_cons]

/-- The table `max_count` holds `uint16` values. -/
theorem max_count_lt (c : Constants) (type : ServerListType) : max_count c type < 2 ^ 16 := by
  cases type <;> exact Nat.mod_lt _ (by decide)

/-- The family tag `type + 1` fits one byte. -/
theorem family_tag_mod (type : ServerListType) : (type.toNat + 1) % 2 ^ 8 = type.toNat + 1 := by
  cases type <;> rfl

/-- The packet a rebuild produces: the family tag, the count as a `uint16`, then
for the first `count` servers returned the address word and the port. -/
theorem rebuiltPacket_eq (c : Constants) (sql : SQL) (type : ServerListType) :
    rebuiltPacket c sql type =
      { type := c.PACKET_UDP_MASTER_RESPONSE_LIST
        payload :=
          [PacketField.uint8 (type.toNat + 1),
            PacketField.uint16
              ((sql.GetActiveServers (max_count c type) (decide (type = .SLT_IPv6))).length
                % 2 ^ 16)] ++
            ((sql.GetActiveServers (max_count c type) (decide (type = .SLT_IPv6))).take
              ((sql.GetActiveServers (max_count c type) (decide (type = .SLT_IPv6))).length
                % 2 ^ 16)).flatMap encodeServer } := by
  unfold rebuiltPacket
  rw [fill_loop_eq]
  simp only [NetworkSend_Init, Packet.Send_uint8, Packet.Send_uint16, List.nil_append,
    List.cons_append, family_tag_mod, Nat.mod_mod]

/-- The packet a rebuild produces when the backend returns at most `max_count`
servers: all of them are encoded and the count is their number. -/
theorem rebuiltPacket_of_le (c : Constants) (sql : SQL) (type : ServerListType)
    (h : (sql.GetActiveServers (max_count c type) (decide (type = .SLT_IPv6))).length
      ≤ max_count c type) :
    rebuiltPacket c sql type =
      { type := c.PACKET_UDP_MASTER_RESPONSE_LIST
        payload :=
          [PacketField.uint8 (type.toNat + 1),
            PacketField.uint16
              (sql.GetActiveServers (max_count c type) (decide (type = .SLT_IPv6))).length] ++
            (sql.GetActiveServers (max_count c type) (decide (type = .SLT_IPv6))).flatMap
              encodeServer } := by
  have hlt := max_count_lt c type
  have hmod : (sql.GetActiveServers (max_count c type) (decide (type = .SLT_IPv6))).length
      % 2 ^ 16
      = (sql.GetActiveServers (max_count c type) (decide (type = .SLT_IPv6))).length :=
    Nat.mod_eq_of_lt (by omega)
  rw [rebuiltPacket_eq, hmod, List.take_length]

/-- Every server takes six bytes in the packet. -/
theorem encoded_servers_width (l : List NetworkAddress) :
    ((l.flatMap encodeServer).map PacketField.width).sum = 6 * l.length := by
  induction l with
  | nil => simp
  | cons s l ih =>
    rw [List.flatMap_cons, List.map_append, List.sum_append, ih]
    simp [encodeServer, PacketField.width]
    omega

/-- Encoded length of a rebuilt packet for a backend that returns at most
`max_count` servers: six bytes of header, family tag and count, and six bytes for
every server. -/
theorem rebuiltPacket_size (c : Constants) (sql : SQL) (type : ServerListType)
    (h : (sql.GetActiveServers (max_count c type) (decide (type = .SLT_IPv6))).length
      ≤ max_count c type) :
    (rebuiltPacket c sql type).size =
      6 + 6 * (sql.GetActiveServers (max_count c type) (decide (type = .SLT_IPv6))).length := by
  rw [rebuiltPacket_of_le c sql type h]
  simp only [Packet.size, List.map_append, List.sum_append, encoded_servers_width]
  simp [PacketField.width]
  omega

/-- The rebuilt packet exceeds the buffer by at most one byte, and fits it for
the IPv6 family and whenever the bytes left after `PacketSize`, `PacketType` and
the count are not a multiple of six. -/
theorem rebuiltPacket_size_le (c : Constants) (sql : SQL) (type : ServerListType)
    (hB : 6 ≤ c.sizeof_buffer)
    (h : (sql.GetActiveServers (max_count c type) (decide (type = .SLT_IPv6))).length
      ≤ max_count c type) :
    (rebuiltPacket c sql type).size ≤ c.sizeof_buffer + 1 ∧
      ((type = .SLT_IPv6 ∨ (c.sizeof_buffer - 2 - 1 - 2) % 6 ≠ 0) →
        (rebuiltPacket c sql type).size ≤ c.sizeof_buffer) := by
  rw [rebuiltPacket_size c sql type h]
  have h4 : max_count c .SLT_IPv4 ≤ (c.sizeof_buffer - 2 - 1 - 2) / 6 := Nat.mod_le _ _
  have h6 : max_count c .SLT_IPv6 ≤ (c.sizeof_buffer - 2 - 1 - 2) / 22 := Nat.mod_le _ _
  cases type
  · refine ⟨by omega, fun hne => ?_⟩
    rcases hne with hne | hne
    · exact absurd hne (by decide)
    · omega
  · exact ⟨by omega, fun _ => by omega⟩

/-! ## Theorems: reachable states of the master server -/

/-- In every reachable state a list that is not to be updated has a packet, and
a list that `GetServerListPacket` was never called for is to be updated. -/
theorem Reachable_flags (c : Constants) (backend : SQL → Prop) (ms : MasterServer)
    (calls : List ServerListType) (h : Reachable c backend ms calls) :
    (∀ type, ms.update_serverlist_packet.get type = false →
        ms.serverlist_packet.get type ≠ none) ∧
      (∀ type, type ∉ calls → ms.update_serverlist_packet.get type = true) := by
  induction h with
  | constructed base time =>
    refine ⟨fun type hf => ?_, fun type _ => ?_⟩
    · cases type <;> simp [MasterServer.ctor, SLTArray.get] at hf
    · cases type <;> rfl
  | @getServerListPacket ms calls sql type _ _ ih =>
    rcases GetServerListPacket_cases c sql ms type with ⟨_, h1⟩ | ⟨_, h1⟩
    · rw [h1]
      refine ⟨fun t hf => ?_, fun t ht => ?_⟩
      · by_cases ht : t = type
        · subst ht
          simp only [SLTArray.get_set_same]
          exact fun hn => Option.noConfusion hn
        · simp only [SLTArray.get_set_other _ _ _ _ ht] at hf ⊢
          exact ih.1 t hf
      · have hne : t ≠ type := fun he => ht (he ▸ List.mem_cons_self _ _)
        simp only [SLTArray.get_set_other _ _ _ _ hne]
        exact ih.2 t (fun hm => ht (List.mem_cons_of_mem _ hm))
    · rw [h1]
      exact ⟨ih.1, fun t ht => ih.2 t (fun hm => ht (List.mem_cons_of_mem _ hm))⟩
  | setFrame frame _ ih => exact ih
  | @markDirty ms calls type _ ih =>
    refine ⟨fun t hf => ?_, fun t ht => ?_⟩
    · by_cases hty : t = type
      · subst hty
        simp only [SLTArray.get_set_same] at hf
        exact absurd hf (by decide)
      · simp only [SLTArray.get_set_other _ _ _ _ hty] at hf
        exact ih.1 t hf
    · by_cases hty : t = type
      · subst hty
        simp only [SLTArray.get_set_same]
      · simp only [SLTArray.get_set_other _ _ _ _ hty]
        exact ih.2 t ht
  | nextSessionKey random _ ih => exact ih

/-- A backend that honours `max_count` makes every rebuild produce a well-formed
server list packet. -/
theorem rebuiltPacket_ok (c : Constants) (sql : SQL) (type : ServerListType)
    (hsql : HonoursMaxCount sql) : IsServerListPacket c type (rebuiltPacket c sql type) :=
  ⟨sql.GetActiveServers (max_count c type) (decide (type = .SLT_IPv6)), hsql _ _,
    rebuiltPacket_of_le c sql type (hsql _ _)⟩

/-- In every state reachable with backends that honour `max_count`, every cached
packet is a well-formed server list packet of its family. -/
theorem Reachable_packets (c : Constants) (ms : MasterServer) (calls : List ServerListType)
    (h : Reachable c HonoursMaxCount ms calls) :
    ∀ type p, ms.serverlist_packet.get type = some p → IsServerListPacket c type p := by
  induction h with
  | constructed base time =>
    intro type p hp
    cases type <;> simp [MasterServer.ctor, SLTArray.get] at hp
  | @getServerListPacket ms calls sql type hsql _ ih =>
    rcases GetServerListPacket_cases c sql ms type with ⟨_, h1⟩ | ⟨_, h1⟩
    · rw [h1]
      intro t p hp
      by_cases ht : t = type
      · subst ht
        simp only [SLTArray.get_set_same, Option.some.injEq] at hp
        rw [← hp]
        exact rebuiltPacket_ok c sql t hsql
      · simp only [SLTArray.get_set_other _ _ _ _ ht] at hp
        exact ih t p hp
    · rw [h1]
      exact ih
  | setFrame frame _ ih => exact ih
  | markDirty type _ ih => exact ih
  | nextSessionKey random _ ih => exact ih

/-- The backend derived from an AddressBook honours `max_count`. -/
theorem AddressBook.toSQL_honours (book : AddressBook) : HonoursMaxCount book.toSQL := by
  intro m ipv6
  simp only [AddressBook.toSQL, List.length_take]
  exact Nat.min_le_left _ _

/-- The backend derived from an AddressBook, asked for a family. -/
theorem AddressBook.toSQL_get (book : AddressBook) (m : Nat) (type : ServerListType) :
    book.toSQL.GetActiveServers m (decide (type = .SLT_IPv6))
      = (book.servers.get type).take m := by
  cases type <;> simp [AddressBook.toSQL]

/-- C11: with a backing store that, as the spec has it, yields the active servers
of a family up to `max_count`: (1) in every state reachable with such stores,
the packet `GetServerListPacket` returns for a family is well formed, its encoded
count is the number of servers it holds and is at most the family's `max_count`;
(2) a call that builds the packet from an AddressBook encodes the first
`max_count` servers of the family when the book holds at least that many, so
exactly `max_count` entries, and all of them otherwise: the count is the minimum
of `max_count` and the number of active servers. -/
theorem C11_count_within_max_count (c : Constants) (ms : MasterServer)
    (calls : List ServerListType) (hreach : Reachable c HonoursMaxCount ms calls)
    (sql : SQL) (hsql : HonoursMaxCount sql) (book : AddressBook) (type : ServerListType) :
    (∃ p, (ms.GetServerListPacket c sql type).ret = some p ∧ IsServerListPacket c type p) ∧
      ((ms.GetServerListPacket c book.toSQL type).queries ≠ [] →
        (ms.GetServerListPacket c book.toSQL type).ret =
          some
            { type := c.PACKET_UDP_MASTER_RESPONSE_LIST
              payload :=
                [PacketField.uint8 (type.toNat + 1),
                  PacketField.uint16 (min (max_count c type) (book.servers.get type).length)] ++
                  ((book.servers.get type).take (max_count c type)).flatMap encodeServer }) := by
  refine ⟨?_, fun hq => ?_⟩
  · rcases GetServerListPacket_cases c sql ms type with ⟨_, h1⟩ | ⟨hc, h1⟩
    · rw [h1]
      exact ⟨_, rfl, rebuiltPacket_ok c sql type hsql⟩
    · rw [h1]
      have hflag : ms.update_serverlist_packet.get type = false := by
        cases hf : ms.update_serverlist_packet.get type with
        | false => rfl
        | true => exact absurd (Or.inl hf) hc
      have hsome := (Reachable_flags c HonoursMaxCount ms calls hreach).1 type hflag
      cases hp : ms.serverlist_packet.get type with
      | none => exact absurd hp hsome
      | some p => exact ⟨p, rfl, Reachable_packets c ms calls hreach type p hp⟩
  · rcases GetServerListPacket_cases c book.toSQL ms type with ⟨_, h1⟩ | ⟨_, h1⟩
    · rw [h1, rebuiltPacket_of_le c book.toSQL type (book.toSQL_honours _ _),
        AddressBook.toSQL_get, List.length_take]
    · rw [h1] at hq
      exact absurd rfl hq

/-- Witness of C11: with a buffer of 11 bytes `max_count` is 1 for IPv4; the
example AddressBook holds three IPv4 servers, and the packet built from it holds
exactly one, the first. -/
theorem C11_count_within_max_count_witness :
    (exampleMasterServer.GetServerListPacket smallBufferConstants exampleAddressBook.toSQL
        .SLT_IPv4).ret =
      some
        { type := 7
          payload :=
            [PacketField.uint8 1, PacketField.uint16 1, PacketField.uint32 16777343,
              PacketField.uint16 3979] } :=
  (C11_count_within_max_count smallBufferConstants exampleMasterServer []
    (Reachable.constructed _ _) exampleAddressBook.toSQL exampleAddressBook.toSQL_honours
    exampleAddressBook .SLT_IPv4).2 (by decide)

/-- C12, the code at a buffer of 1460 bytes: the table `max_count` divides the
bytes left after `PacketSize`, `PacketType` and the count by 4 + 2 = 6 for IPv4
and by 4 + 128 / 8 + 2 = 22 for IPv6. For IPv4 this is the value the claim gives,
242; for IPv6 the table holds 66, where a 16-byte address and a 2-byte port, 18
bytes, give 80. -/
theorem C12_max_count_table :
    (∀ c : Constants,
        max_count c .SLT_IPv4 = ((c.sizeof_buffer - 2 - 1 - 2) / 6) % 2 ^ 16 ∧
          max_count c .SLT_IPv6 = ((c.sizeof_buffer - 2 - 1 - 2) / 22) % 2 ^ 16) ∧
      exampleConstants.sizeof_buffer = 1460 ∧
      max_count exampleConstants .SLT_IPv4 = (1460 - 2 - 1 - 2) / (4 + 2) ∧
      max_count exampleConstants .SLT_IPv4 = 242 ∧
      max_count exampleConstants .SLT_IPv6 = 66 ∧
      (1460 - 2 - 1 - 2) / (16 + 2) = 80 :=
  ⟨fun _ => ⟨rfl, rfl⟩, by decide, by decide, by decide, by decide, by decide⟩

/-- C13, the code at a buffer of 11 bytes: the buffer holds an empty list packet
(6 bytes), `max_count` is (11 - 5) / 6 = 1 for IPv4, the backend returns one
server, and the rebuilt packet takes 2 + 1 + 1 + 2 + 6 = 12 bytes, one more than
the buffer holds: the byte of the family tag is not subtracted in `max_count`. -/
theorem C13_packet_exceeds_buffer :
    smallBufferConstants.sizeof_buffer = 11 ∧
      (NetworkSend_Init 7 |>.Send_uint8 1 |>.Send_uint16 0).size ≤ 11 ∧
      max_count smallBufferConstants .SLT_IPv4 = 1 ∧
      (oneServerSQL.GetActiveServers (max_count smallBufferConstants .SLT_IPv4) false).length
        ≤ max_count smallBufferConstants .SLT_IPv4 ∧
      (exampleMasterServer.GetServerListPacket smallBufferConstants oneServerSQL .SLT_IPv4).ret =
        some (rebuiltPacket smallBufferConstants oneServerSQL .SLT_IPv4) ∧
      (rebuiltPacket smallBufferConstants oneServerSQL .SLT_IPv4).size = 12 := by
  decide

/-- C14, the code for the IPv6 family: for every family and every backend
returning at most `max_count` servers the rebuilt payload is the family tag, the
16-bit count, then for every server in order a 32-bit address word and the
16-bit port. So for IPv6 with one server the payload is the tag 2, the count 1,
one 32-bit word and the port, 9 bytes, where a 128-bit address would make 21. -/
theorem C14_address_sent_as_uint32 :
    (∀ (c : Constants) (sql : SQL) (type : ServerListType),
        (sql.GetActiveServers (max_count c type) (decide (type = .SLT_IPv6))).length
            ≤ max_count c type →
          (rebuiltPacket c sql type).payload =
            [PacketField.uint8 (type.toNat + 1),
              PacketField.uint16
                (sql.GetActiveServers (max_count c type) (decide (type = .SLT_IPv6))).length] ++
              (sql.GetActiveServers (max_count c type) (decide (type = .SLT_IPv6))).flatMap
                (fun s =>
                  [PacketField.uint32 (s.s_addr % 2 ^ 32), PacketField.uint16 (s.port % 2 ^ 16)])) ∧
      (exampleMasterServer.GetServerListPacket exampleConstants oneServerSQL .SLT_IPv6).ret =
        some
          { type := 7
            payload :=
              [PacketField.uint8 2, PacketField.uint16 1, PacketField.uint32 16777343,
                PacketField.uint16 3979] } ∧
      ((rebuiltPacket exampleConstants oneServerSQL .SLT_IPv6).payload.map
        PacketField.width).sum = 9 ∧
      1 + 2 + (128 / 8 + 2) = 21 := by
  refine ⟨fun c sql type h => ?_, by decide, by decide, by decide⟩
  rw [rebuiltPacket_of_le c sql type h]
  rfl

/-- Counterexample to C15 as stated: with lists aged 10 frames a rebuild at
frame 4294967290 stores 4 as the next frame of the list, the `uint` sum wrapped
around, not 4294967290 + 10. -/
theorem C15_counterexample :
    (wrapMasterServer.GetServerListPacket exampleConstants exampleSQL .SLT_IPv6).queries
        = [(66, true)] ∧
      (wrapMasterServer.GetServerListPacket exampleConstants exampleSQL
          .SLT_IPv6).state.next_serverlist_frame.get .SLT_IPv6 = 4 ∧
      wrapMasterServer.frame + exampleConstants.GAME_SERVER_LIST_AGE = 4294967300 := by
  decide

/-- C15 (amended): whenever `GetServerListPacket` rebuilds the packet of a family
at frame `f`, afterwards the family's `update_serverlist_packet` flag is clear,
its `next_serverlist_frame` is `f + GAME_SERVER_LIST_AGE` taken modulo `2 ^ 32`,
which is `f + GAME_SERVER_LIST_AGE` itself whenever that is below `2 ^ 32`, and
both the returned packet and the cached packet are the newly built one,
whatever packet was cached before. -/
theorem C15_rebuild_effects (c : Constants) (sql : SQL) (ms : MasterServer)
    (type : ServerListType) (hrebuilt : (ms.GetServerListPacket c sql type).queries ≠ []) :
    (ms.GetServerListPacket c sql type).state.update_serverlist_packet.get type = false ∧
      (ms.GetServerListPacket c sql type).state.next_serverlist_frame.get type
        = (ms.frame + c.GAME_SERVER_LIST_AGE) % 2 ^ 32 ∧
      (ms.frame + c.GAME_SERVER_LIST_AGE < 2 ^ 32 →
        (ms.GetServerListPacket c sql type).state.next_serverlist_frame.get type
          = ms.frame + c.GAME_SERVER_LIST_AGE) ∧
      (ms.GetServerListPacket c sql type).ret = some (rebuiltPacket c sql type) ∧
      (ms.GetServerListPacket c sql type).state.serverlist_packet.get type
        = some (rebuiltPacket c sql type) := by
  rcases GetServerListPacket_cases c sql ms type with ⟨_, h1⟩ | ⟨_, h1⟩
  · rw [h1]
    simp only [SLTArray.get_set_same]
    exact ⟨trivial, trivial, fun hw => Nat.mod_eq_of_lt hw, trivial, trivial⟩
  · rw [h1] at hrebuilt
    exact absurd rfl hrebuilt

/-- Witness of C15 (amended): the example cache state at frame 10, after its
IPv4 list was marked to be updated. -/
theorem C15_rebuild_effects_witness :
    (({ exampleCachedServer with
          update_serverlist_packet := { ipv4 := true, ipv6 := true } } :
        MasterServer).GetServerListPacket exampleConstants exampleSQL .SLT_IPv4).queries ≠ [] ∧
      (({ exampleCachedServer with
            update_serverlist_packet := { ipv4 := true, ipv6 := true } } :
          MasterServer).GetServerListPacket exampleConstants exampleSQL
          .SLT_IPv4).state.next_serverlist_frame.get .SLT_IPv4
        = 10 + exampleConstants.GAME_SERVER_LIST_AGE :=
  ⟨by decide,
    (C15_rebuild_effects exampleConstants exampleSQL
      { exampleCachedServer with update_serverlist_packet := { ipv4 := true, ipv6 := true } }
      .SLT_IPv4 (by decide)).2.2.1 (by decide)⟩

/-- C16: in every state reachable from the constructor's state by
`GetServerListPacket` calls (with any backend), new frame values, lists being
marked to be updated and `NextSessionKey` calls: a list whose flag is clear has a
cached packet; `GetServerListPacket` returns a packet, not `NULL`, for every
family; and a call for a family that was not asked for before rebuilds. -/
theorem C16_never_null (c : Constants) (backend : SQL → Prop) (ms : MasterServer)
    (calls : List ServerListType) (hreach : Reachable c backend ms calls) :
    (∀ type, ms.update_serverlist_packet.get type = false →
        ms.serverlist_packet.get type ≠ none) ∧
      (∀ sql type, (ms.GetServerListPacket c sql type).ret ≠ none) ∧
      (∀ sql type, type ∉ calls → (ms.GetServerListPacket c sql type).queries ≠ []) := by
  obtain ⟨hinv, hfirst⟩ := Reachable_flags c backend ms calls hreach
  refine ⟨hinv, fun sql type => ?_, fun sql type ht => ?_⟩
  · rcases GetServerListPacket_cases c sql ms type with ⟨_, h1⟩ | ⟨hc, h1⟩
    · rw [h1]
      exact fun hn => Option.noConfusion hn
    · rw [h1]
      apply hinv
      cases hf : ms.update_serverlist_packet.get type with
      | false => rfl
      | true => exact absurd (Or.inl hf) hc
  · rcases GetServerListPacket_cases c sql ms type with ⟨_, h1⟩ | ⟨hc, h1⟩
    · rw [h1]
      exact fun hn => List.noConfusion hn
    · exact absurd (Or.inl (hfirst type ht)) hc

/-- Witness of C16: the state the constructor leaves, then an IPv4 call at
frame 0 and the frame set to 3; the IPv6 list was not asked for yet. -/
theorem C16_never_null_witness :
    (({ (exampleMasterServer.GetServerListPacket exampleConstants exampleSQL .SLT_IPv4).state
          with frame := 3 } : MasterServer).GetServerListPacket exampleConstants emptySQL
        .SLT_IPv6).queries ≠ [] :=
  (C16_never_null exampleConstants (fun _ => True)
    { (exampleMasterServer.GetServerListPacket exampleConstants exampleSQL .SLT_IPv4).state
        with frame := 3 }
    [.SLT_IPv4]
    (Reachable.setFrame 3
      (Reachable.getServerListPacket exampleSQL .SLT_IPv4 trivial
        (Reachable.constructed _ _)))).2.2 emptySQL .SLT_IPv6 (by decide)

/-! ## Theorems: frame conditions -/

/-- Replacing an entry and then leaving it out is leaving it out. -/
theorem eraseIdx_set_same {α : Type} (l : List α) :
    ∀ (i : Nat) (x : α), (l.set i x).eraseIdx i = l.eraseIdx i := by
  induction l with
  | nil => intro i x; rfl
  | cons a l ih =>
    intro i x
    cases i with
    | zero => rfl
    | succ i => simp [List.set, List.eraseIdx, ih]

/-- C17: in a collection of queried servers, `DoAttempt` on the entry `e` at
position `i` leaves every other entry in the collection, in the same order and
with all its fields (attempts, last-sent frame, server address, reply address,
session key) as they were: the collection without position `i` is the same
before and after when `e` stays, and when `e` is removed the collection
afterwards is the one before without position `i`. Every call the attempt makes
concerns `e` only, and `e` keeps its addresses and its session key. -/
theorem C17_other_entries_untouched (c : Constants) (server : UDPServer)
    (entries : List MSQueriedServer) (i : Nat) (e : MSQueriedServer)
    (he : entries[i]? = some e) :
    (if (e.DoAttempt c server).deleted then (DoAttemptAt c server entries i).1
        else (DoAttemptAt c server entries i).1.eraseIdx i) = entries.eraseIdx i ∧
      ((e.DoAttempt c server).deleted = false →
        (DoAttemptAt c server entries i).1.length = entries.length ∧
          (DoAttemptAt c server entries i).1[i]? = some (e.DoAttempt c server).self ∧
          ∀ j, j ≠ i → (DoAttemptAt c server entries i).1[j]? = entries[j]?) ∧
      ((e.DoAttempt c server).deleted = true →
        (DoAttemptAt c server entries i).1.length + 1 = entries.length) ∧
      (∀ ev ∈ (DoAttemptAt c server entries i).2,
        ev = Event.RemoveQueriedServer { e with attempts := e.attempts + 1 } ∨
          ev = Event.SendFindGameServerPacket server.query_socket
            { e with attempts := e.attempts + 1 }) ∧
      (e.DoAttempt c server).self.server_address = e.server_address ∧
      (e.DoAttempt c server).self.reply_address = e.reply_address ∧
      (e.DoAttempt c server).self.session_key = e.session_key := by
  have hi : i < entries.length := by
    rcases Nat.lt_or_ge i entries.length with h | h
    · exact h
    · rw [List.getElem?_eq_none h] at he
      exact Option.noConfusion he
  have hrun : DoAttemptAt c server entries i =
      ((if (e.DoAttempt c server).deleted then RemoveQueriedServer entries i
        else entries.set i (e.DoAttempt c server).self), (e.DoAttempt c server).events) := by
    simp only [DoAttemptAt, he]
  rw [hrun]
  refine ⟨?_, fun hd => ?_, fun hd => ?_, ?_, ?_⟩
  · cases hd : (e.DoAttempt c server).deleted with
    | true => simp [RemoveQueriedServer]
    | false => simp [eraseIdx_set_same]
  · simp only [hd, Bool.false_eq_true, if_false, List.length_set]
    refine ⟨trivial, ?_, fun j hj => ?_⟩
    · rw [List.getElem?_set]
      simp [hi]
    · rw [List.getElem?_set]
      simp [Ne.symm hj]
  · simp only [hd, if_true, RemoveQueriedServer, List.length_eraseIdx, hi]
    omega
  · intro ev hev
    rcases DoAttempt_cases c server e with ⟨_, h1⟩ | ⟨_, _, h1⟩ | ⟨_, _, h1⟩ <;>
      rw [h1] at hev <;> simp at hev
    · exact Or.inl hev
    · exact Or.inr hev
  · rcases DoAttempt_cases c server e with ⟨_, h1⟩ | ⟨_, _, h1⟩ | ⟨_, _, h1⟩ <;> rw [h1] <;>
      exact ⟨rfl, rfl, rfl⟩

/-- Witness of C17: in the example collection the middle entry has used its
three attempts; its call at frame 5 removes it and leaves the two others. -/
theorem C17_other_entries_untouched_witness :
    exampleEntries[1]? = some { exampleEntry with attempts := 3, session_key := 43 } ∧
      (if (({ exampleEntry with attempts := 3, session_key := 43 } :
              MSQueriedServer).DoAttempt exampleConstants { frame := 5, query_socket := 1 }).deleted
          then (DoAttemptAt exampleConstants { frame := 5, query_socket := 1 } exampleEntries 1).1
          else (DoAttemptAt exampleConstants { frame := 5, query_socket := 1 }
            exampleEntries 1).1.eraseIdx 1) = exampleEntries.eraseIdx 1 :=
  ⟨by decide,
    (C17_other_entries_untouched exampleConstants { frame := 5, query_socket := 1 }
      exampleEntries 1 { exampleEntry with attempts := 3, session_key := 43 } (by decide)).1⟩

/-- C18: `GetServerListPacket` called for one family leaves the cached packet,
the `update_serverlist_packet` flag and the `next_serverlist_frame` of the other
family as they were, whether the call rebuilds or not. -/
theorem C18_other_family_untouched (c : Constants) (sql : SQL) (ms : MasterServer)
    (type other : ServerListType) (hother : other ≠ type) :
    (ms.GetServerListPacket c sql type).state.serverlist_packet.get other
        = ms.serverlist_packet.get other ∧
      (ms.GetServerListPacket c sql type).state.update_serverlist_packet.get other
        = ms.update_serverlist_packet.get other ∧
      (ms.GetServerListPacket c sql type).state.next_serverlist_frame.get other
        = ms.next_serverlist_frame.get other := by
  rcases GetServerListPacket_cases c sql ms type with ⟨_, h1⟩ | ⟨_, h1⟩
  · rw [h1]
    simp only [SLTArray.get_set_other _ _ _ _ hother, and_self]
  · rw [h1]
    exact ⟨rfl, rfl, rfl⟩

/-- Witness of C18: an IPv6 call on the example cache state, which rebuilds,
leaves the cached IPv4 packet in place. -/
theorem C18_other_family_untouched_witness :
    ServerListType.SLT_IPv4 ≠ ServerListType.SLT_IPv6 ∧
      (exampleCachedServer.GetServerListPacket exampleConstants exampleSQL
          .SLT_IPv6).state.serverlist_packet.get .SLT_IPv4
        = exampleCachedServer.serverlist_packet.get .SLT_IPv4 :=
  ⟨by decide,
    (C18_other_family_untouched exampleConstants exampleSQL exampleCachedServer .SLT_IPv6
      .SLT_IPv4 (by decide)).1⟩

end Masterserver
